import Mathlib

/-!
# Verification of the DocuChat bounded agent runtime

A shallow embedding, in Lean 4, of the agent subsystem of the DocuChat
backend (`backend/apps/agent/`): the strict JSON action parser, the agent
state, the tool dispatcher, the validator, the citation grounder, the
constraint analyzer, the HTTP-view request validation and the bounded
executor loop of `executor_v2.py`.

Python strings are modelled as `List Char`; Python machine behaviour that
matters to the claims (attribute errors on non-string values, the
`TypeError` raised when a function is called with an unexpected keyword
argument) is modelled explicitly through an `Except` monad.  Regular
expressions used by the source are modelled by direct scanning functions
that implement the semantics of the concrete patterns appearing in the
source.
-/

set_option maxRecDepth 100000

namespace DocuChat

/-- Python `str` is modelled as a list of characters. -/
abbrev Str := List Char

/-- Coerce a Lean string literal to the `Str` model. -/
def strOf (s : String) : Str := s.data

/-- The apostrophe character (U+0027), built numerically. -/
def apos : Char := Char.ofNat 39

/-- The double-quote character (U+0022), built numerically. -/
def dquote : Char := Char.ofNat 34

/-- The backtick character (U+0060), built numerically. -/
def btick : Char := Char.ofNat 96

/-- Python `\s` / `str.strip` whitespace (ASCII fragment: space, tab,
newline, carriage return, vertical tab, form feed). -/
def isWs (c : Char) : Bool :=
  c = ' ' ∨ c = Char.ofNat 9 ∨ c = Char.ofNat 10 ∨ c = Char.ofNat 13 ∨
  c = Char.ofNat 11 ∨ c = Char.ofNat 12

/-- Python `str.strip()`: drop leading and trailing whitespace. -/
def stripStr (s : Str) : Str :=
  ((s.dropWhile isWs).reverse.dropWhile isWs).reverse

/-- ASCII lower-casing of one character (Python `str.lower` on the ASCII
inputs used by the source). -/
def lowerChar (c : Char) : Char :=
  if 'A' ≤ c ∧ c ≤ 'Z' then Char.ofNat (c.toNat + 32) else c

/-- Python `str.lower()`. -/
def lowerStr (s : Str) : Str := s.map lowerChar

/-- Decimal digit test. -/
def isDigitCh (c : Char) : Bool := '0' ≤ c ∧ c ≤ '9'

/-- Value of a digit character. -/
def digitVal (c : Char) : Nat := c.toNat - 48

/-- Python `int(...)` on a non-empty string of decimal digits. -/
def digitsToNat (s : Str) : Nat :=
  s.foldl (fun acc c => acc * 10 + digitVal c) 0

/-- The decimal digit character for `d < 10`. -/
def digitChar (d : Nat) : Char := Char.ofNat (48 + d)

/-- Canonical decimal digits of `n`, most significant first; the fuel is
an upper bound on the recursion depth (`n + 1` always suffices). -/
def natDigitsAux : Nat → Nat → Str
  | 0, _ => []
  | Nat.succ f, n =>
    if n < 10 then [digitChar n]
    else natDigitsAux f (n / 10) ++ [digitChar (n % 10)]

/-- Python `str(n)` for a natural number, as a `Str`. -/
def natToStr (n : Nat) : Str := natDigitsAux (n + 1) n

/-- Is `pre` a prefix of `s` (character-wise)? -/
def isPrefixStr : Str → Str → Bool
  | [], _ => true
  | _ :: _, [] => false
  | p :: ps, c :: cs => p = c ∧ isPrefixStr ps cs

/-- Python `needle in hay` (substring containment). -/
def containsSubStr (needle : Str) : Str → Bool
  | [] => isPrefixStr needle []
  | c :: rest => isPrefixStr needle (c :: rest) ∨ containsSubStr needle rest

/-- One step of whitespace-run collapsing: every maximal run of whitespace
becomes a single space (`re.sub(r'\s+', ' ', s)`).  `prevWs` records whether
the previous character belonged to a whitespace run. -/
def collapseWsGo : Bool → Str → Str
  | _, [] => []
  | prevWs, c :: rest =>
    if isWs c then
      if prevWs then collapseWsGo true rest
      else ' ' :: collapseWsGo true rest
    else c :: collapseWsGo false rest

/-- `re.sub(r'\s+', ' ', s).strip()` — the cleanup applied by the citation
grounder to the final answer. -/
def collapseWs (s : Str) : Str := stripStr (collapseWsGo false s)

/-- Removal of every (leftmost, non-overlapping) occurrence of the literal
string `needle` — the semantics of `re.sub` with a fully escaped pattern and
an empty replacement.  `skip` counts characters still to drop from a match
already recognised. -/
def removeGo (needle : Str) : Nat → Str → Str
  | Nat.succ k, _ :: rest => removeGo needle k rest
  | Nat.succ _, [] => []
  | 0, [] => []
  | 0, c :: rest =>
    if 1 ≤ needle.length ∧ isPrefixStr needle (c :: rest) then
      removeGo needle (needle.length - 1) rest
    else c :: removeGo needle 0 rest

/-- Remove every occurrence of the literal `needle` from `s`. -/
def removeAllLit (needle s : Str) : Str := removeGo needle 0 s

/-- State machine computing `re.findall(r'\[(\d+)\]', s)` followed by
`int(...)` on each capture: the list of bracketed decimal references in
order of occurrence (duplicates kept).  `pending` holds, inside a candidate
match, the numeric value of the digits read so far (`none` when no digit
was read yet after the opening bracket). -/
def findRefsGo : Option (Option Nat) → Str → List Nat
  | _, [] => []
  | st, c :: rest =>
    if c = '[' then findRefsGo (some none) rest
    else
      match st with
      | some pending =>
        if isDigitCh c then
          findRefsGo (some (some ((pending.getD 0) * 10 + digitVal c))) rest
        else if c = ']' then
          match pending with
          | some n => n :: findRefsGo none rest
          | none => findRefsGo none rest
        else findRefsGo none rest
      | none => findRefsGo none rest

/-- `[int(m) for m in re.findall(r'\[(\d+)\]', s)]`. -/
def findBracketRefs (s : Str) : List Nat := findRefsGo none s

/-! ## Python value model

JSON values decoded by `json.loads`, as manipulated by the action parser
and the executor.  Object keys are strings; `json.loads` deduplicates keys,
so lookup by first match is faithful. -/

/-- A decoded Python/JSON value. -/
inductive PyVal where
  | pyNone
  | pyBool (b : Bool)
  | pyInt (n : Int)
  | pyStr (s : Str)
  | pyList (xs : List PyVal)
  | pyDict (fields : List (Str × PyVal))

/-- Python exceptions that the embedded code can raise.  The three
`ToolError` classes of `apps/agent/tools.py` are separate constructors so
that the dispatcher's `except` clauses can be modelled exactly. -/
inductive PyExc where
  | attributeError (msg : Str)
  | typeError (msg : Str)
  | toolValidationError (msg : Str)
  | toolAccessError (msg : Str)
  | toolError (msg : Str)
  | llmError (msg : Str)
  | agentError (msg : Str)

/-- Python truthiness of a decoded value. -/
def pyTruthy : PyVal → Bool
  | .pyNone => false
  | .pyBool b => b
  | .pyInt n => n ≠ 0
  | .pyStr s => s ≠ []
  | .pyList xs => ¬ xs.isEmpty
  | .pyDict fs => ¬ fs.isEmpty

/-- Python `==` between a decoded value and a string literal. -/
def pyEqStr (v : PyVal) (s : Str) : Bool :=
  match v with
  | .pyStr t => t = s
  | _ => false

/-- Assoc-list lookup for object fields. -/
def lookupField (fields : List (Str × PyVal)) (key : Str) : Option PyVal :=
  match fields with
  | [] => none
  | (k, v) :: rest => if k = key then some v else lookupField rest key

/-- Python `dict.get(key, default)` on a decoded object. -/
def dictGet (fields : List (Str × PyVal)) (key : Str) (dflt : PyVal) : PyVal :=
  (lookupField fields key).getD dflt

/-- Python `key in dict` on a decoded object. -/
def dictHas (fields : List (Str × PyVal)) (key : Str) : Bool :=
  (lookupField fields key).isSome

/-- Python `value.get(key, default)`: succeeds on dicts, raises
`AttributeError` on any other value. -/
def pyGet (v : PyVal) (key : Str) (dflt : PyVal) : Except PyExc PyVal :=
  match v with
  | .pyDict fields => .ok (dictGet fields key dflt)
  | _ => .error (.attributeError (strOf "object has no attribute get"))

/-- Python `value.lower()`: succeeds on strings, raises `AttributeError`
on any other value.  This is the call performed by
`parse_strict_json_action` on `data.get('type', '')`. -/
def pyLower (v : PyVal) : Except PyExc Str :=
  match v with
  | .pyStr s => .ok (lowerStr s)
  | _ => .error (.attributeError (strOf "object has no attribute lower"))

/-! ## Strict JSON action parser (`executor_v2.parse_strict_json_action`)

The source first extracts the first/widest brace-delimited span with
`re.search(r'\{[\s\S]*\}', text)` and runs `json.loads` on it.  Since that
span starts with a brace, a successful decode always yields an object.  The
embedding therefore takes the outcome of this extraction/decoding stage as
input: no span found, a decode failure (with the exception text), or the
decoded object. -/

/-- Outcome of the brace-extraction and `json.loads` stage. -/
inductive ParserInput where
  | noJson
  | badJson (msg : Str)
  | jsonObj (fields : List (Str × PyVal))

/-- A parsed `TOOL_CALL` action.  `tool` is one of the two known tool names
(enforced by the parser); `input` is the raw decoded value (the inference
branch of the parser performs no `isinstance` check on it). -/
structure ToolCallAction where
  tool : Str
  input : PyVal

/-- A parsed `FINAL` action.  The fields are raw decoded values: the
inference branch of the parser performs no type checks on them. -/
structure FinalAction where
  answer : PyVal
  used_citations : PyVal
  insufficiencies : PyVal

/-- The tagged union returned by the action parser
(`action_type ∈ {tool_call, final, invalid}`). -/
inductive ParsedAction where
  | toolCall (tc : ToolCallAction)
  | finalAct (fa : FinalAction)
  | invalid (error : Str)

/-- The tag of a parsed action. -/
def ParsedAction.kind : ParsedAction → Str
  | .toolCall _ => strOf "tool_call"
  | .finalAct _ => strOf "final"
  | .invalid _ => strOf "invalid"

/-- `executor_v2.parse_strict_json_action`, from the decoded stage onward.
Returns `Except` because `data.get('type', '').lower()` raises
`AttributeError` when the `type` field holds a non-string value. -/
def parse_strict_json_action (inp : ParserInput) : Except PyExc ParsedAction :=
  match inp with
  | .noJson => .ok (.invalid (strOf "No JSON object found in response"))
  | .badJson msg => .ok (.invalid (strOf "Invalid JSON: " ++ msg.take 50))
  | .jsonObj data => do
    let action_type ← pyLower (dictGet data (strOf "type") (.pyStr []))
    if action_type = strOf "tool_call" then
      let tool := dictGet data (strOf "tool") (.pyStr [])
      let tool_input := dictGet data (strOf "input") (.pyDict [])
      if ¬ (pyEqStr tool (strOf "search_docs") ∨ pyEqStr tool (strOf "open_citation")) then
        .ok (.invalid (strOf "Unknown tool"))
      else
        match tool_input with
        | .pyDict _ =>
          match tool with
          | .pyStr t => .ok (.toolCall ⟨t, tool_input⟩)
          | _ => .ok (.invalid (strOf "Unknown tool"))
        | _ => .ok (.invalid (strOf "input must be an object"))
    else if action_type = strOf "final" then
      let answer := dictGet data (strOf "answer") (.pyStr [])
      let used_citations := dictGet data (strOf "used_citations") (.pyList [])
      let insufficiencies := dictGet data (strOf "insufficiencies") (.pyList [])
      match answer with
      | .pyStr _ =>
        let uc := match used_citations with
          | .pyList xs => PyVal.pyList xs
          | _ => PyVal.pyList []
        let ins := match insufficiencies with
          | .pyList xs => PyVal.pyList xs
          | _ => PyVal.pyList []
        .ok (.finalAct ⟨answer, uc, ins⟩)
      | _ => .ok (.invalid (strOf "answer must be a string"))
    else
      if dictHas data (strOf "tool") ∧ dictHas data (strOf "input") ∧
          (pyEqStr (dictGet data (strOf "tool") (.pyStr []))
             (strOf "search_docs") ∨
           pyEqStr (dictGet data (strOf "tool") (.pyStr []))
             (strOf "open_citation")) then
        match dictGet data (strOf "tool") (.pyStr []) with
        | .pyStr t =>
          .ok (.toolCall ⟨t, dictGet data (strOf "input") (.pyDict [])⟩)
        | _ => .ok (.invalid (strOf "Unknown action type"))
      else if dictHas data (strOf "answer") then
        .ok (.finalAct ⟨dictGet data (strOf "answer") (.pyStr []),
          dictGet data (strOf "used_citations")
            (dictGet data (strOf "citations") (.pyList [])),
          dictGet data (strOf "insufficiencies") (.pyList [])⟩)
      else
        .ok (.invalid (strOf "Unknown action type"))

/-! ## Hard limits (`executor_v2.py`) -/

def MAX_TOOL_CALLS : Nat := 5
def MAX_ITERATIONS : Nat := 10
def MAX_REPROMPTS : Nat := 3
def MAX_QUESTION_LENGTH : Nat := 1000
def MAX_CONTEXT_CITATIONS : Nat := 5
def MAX_CITATION_TEXT_FOR_LLM : Nat := 2000

/-! ## Constraints record (`constraints.PromptConstraints`) -/

/-- `constraints.PromptConstraints`. -/
structure PromptConstraints where
  min_searches : Nat
  required_search_topics : List Str
  min_open_citations : Nat
  requires_exact_quote : Bool
  exact_quote_indicators : List Str
  requires_conflict_resolution : Bool
  conflict_resolution_rule : Option Str
  required_sections : List Str
  requires_insufficiency_disclosure : Bool
  estimated_min_answer_length : Nat
  is_complex_query : Bool

/-- The dataclass defaults of `PromptConstraints`. -/
def PromptConstraints.defaults : PromptConstraints :=
  ⟨1, [], 0, false, [], false, none, [], false, 50, false⟩

/-! ## Tool outputs (`apps/agent/tools.py`) -/

/-- `tools.SearchResult` (one hit of `search_docs`). -/
structure SearchResult where
  doc_id : Str
  chunk_id : Str
  chunk_index : Int
  snippet : Str
  score : Rat

/-- `tools.SearchDocsOutput`. -/
structure SearchDocsOutput where
  results : List SearchResult

/-- `tools.OpenCitationOutput`. -/
structure OpenCitationOutput where
  doc_id : Str
  chunk_id : Str
  chunk_index : Int
  text : Str
  filename : Str

/-! ## Agent state (`executor_v2.AgentState`) -/

/-- `executor_v2.SearchResultItem` (a hit stored in the agent state,
annotated with the query that produced it and a filename). -/
structure SearchResultItem where
  doc_id : Str
  chunk_id : Str
  chunk_index : Int
  snippet : Str
  score : Rat
  filename : Str
  query : Str

/-- `executor_v2.OpenedCitation` (an opened chunk with its text and its
assigned citation number). -/
structure OpenedCitation where
  doc_id : Str
  chunk_id : Str
  chunk_index : Int
  text : Str
  filename : Str
  citation_num : Nat

/-- `executor_v2.Insufficiency`.  Field values originate from untyped
model-supplied dictionaries, hence `PyVal`. -/
structure Insufficiency where
  sectionName : PyVal
  missing : PyVal
  queries_tried : PyVal

/-- `executor_v2.AgentState`.  `search_queries` models the private
`_search_queries` list and `citation_counter` the private
`_citation_counter`.  `used_log` is a ghost field recording every value
taken by `tool_calls_used` immediately after each increment; it exists
only for stating the budget invariant and is appended to exactly where the
source increments the counter. -/
structure AgentState where
  constraints : PromptConstraints
  tool_calls_used : Nat
  search_results : List SearchResultItem
  opened_citations : List OpenedCitation
  notes : List Str
  insufficiencies : List Insufficiency
  citation_counter : Nat
  search_queries : List Str
  used_log : List Nat

/-- `AgentState.__init__`. -/
def AgentState.init (c : PromptConstraints) : AgentState :=
  ⟨c, 0, [], [], [], [], 0, [], []⟩

/-- `state.tool_calls_used += 1`, recording the new value in the ghost
log. -/
def AgentState.bumpToolCalls (s : AgentState) : AgentState :=
  { s with tool_calls_used := s.tool_calls_used + 1,
           used_log := s.used_log ++ [s.tool_calls_used + 1] }

/-- `AgentState.remaining_tool_budget` (an integer in the source; here the
signed value, so that the `<= 0` comparisons of the source are exact). -/
def AgentState.remaining_tool_budget (s : AgentState) : Int :=
  (MAX_TOOL_CALLS : Int) - (s.tool_calls_used : Int)

/-- `AgentState.search_count` — the length of `_search_queries`. -/
def AgentState.search_count (s : AgentState) : Nat := s.search_queries.length

/-- `AgentState.add_search_results`: appends the query (unconditionally)
and the capped search hits.  `filename_map` models the
`Document.objects.filter` lookup performed by the dispatcher. -/
def AgentState.add_search_results (s : AgentState) (query : Str)
    (output : SearchDocsOutput) (filename_map : Str → Option Str) :
    AgentState :=
  { s with
    search_queries := s.search_queries ++ [query],
    search_results := s.search_results ++ output.results.map (fun r =>
      ⟨r.doc_id, r.chunk_id, r.chunk_index, r.snippet.take 250, r.score,
       (filename_map r.doc_id).getD (strOf "document"), query⟩) }

/-- `AgentState.add_opened_citation`: bump the citation counter, clip the
text to `MAX_CITATION_TEXT_FOR_LLM` (appending an ellipsis), append the
opened citation, and keep only the last `MAX_CONTEXT_CITATIONS` entries. -/
def AgentState.add_opened_citation (s : AgentState)
    (output : OpenCitationOutput) : AgentState :=
  let counter := s.citation_counter + 1
  let text :=
    if MAX_CITATION_TEXT_FOR_LLM < output.text.length then
      output.text.take MAX_CITATION_TEXT_FOR_LLM ++ strOf "..."
    else output.text
  let opened := s.opened_citations ++
    [⟨output.doc_id, output.chunk_id, output.chunk_index, text,
      output.filename, counter⟩]
  { s with
    citation_counter := counter,
    opened_citations :=
      if MAX_CONTEXT_CITATIONS < opened.length then
        opened.drop (opened.length - MAX_CONTEXT_CITATIONS)
      else opened }

/-- `AgentState.get_known_doc_ids`.  The source builds `list(set(...))`;
the embedding keeps first-occurrence order, which is a sound model because
every use (prefix resolution) only depends on the set of identifiers. -/
def AgentState.get_known_doc_ids (s : AgentState) : List Str :=
  (s.search_results.map (fun r => r.doc_id)).dedup

/-- `AgentState.get_known_chunk_ids`. -/
def AgentState.get_known_chunk_ids (s : AgentState) : List Str :=
  (s.search_results.map (fun r => r.chunk_id)).dedup

/-! ## UUID prefix resolution (`executor_v2.find_full_uuid_from_prefix`) -/

/-- `executor_v2.find_full_uuid_from_prefix` on an already-string
argument.  (The name avoids ending in the reserved word.) -/
def find_full_uuid_from_pfx (pfx : Str) (known_uuids : List Str) :
    Option Str :=
  if pfx.length < 8 then none
  else
    let pfx_clean := lowerStr (stripStr pfx)
    match known_uuids.find? (fun u => lowerStr u = pfx_clean) with
    | some u => some u
    | none =>
      let ms := known_uuids.filter (fun u => isPrefixStr pfx_clean (lowerStr u))
      if ms.length = 1 then ms.head?
      else if ms.length = 0 ∧ 12 ≤ pfx_clean.length then
        let sub := known_uuids.filter (fun u => containsSubStr pfx_clean (lowerStr u))
        if sub.length = 1 then sub.head? else none
      else none

/-- The guard `if not prefix or len(prefix) < 8` evaluated on a raw decoded
value: `len(...)` raises `TypeError` on non-sized values and the subsequent
`.strip()` would raise on non-strings, so any truthy non-string input
raises. -/
def find_full_uuid_from_pfx_py (v : PyVal) (known_uuids : List Str) :
    Except PyExc (Option Str) :=
  if ¬ pyTruthy v then .ok none
  else
    match v with
    | .pyStr s => .ok (find_full_uuid_from_pfx s known_uuids)
    | _ => .error (.typeError (strOf "object has no len"))

/-- `AgentState.resolve_truncated_ids`. -/
def AgentState.resolve_truncated_ids (s : AgentState) (doc_id chunk_id : Str) :
    Option Str × Option Str :=
  (find_full_uuid_from_pfx doc_id s.get_known_doc_ids,
   find_full_uuid_from_pfx chunk_id s.get_known_chunk_ids)

/-! ## Validation snapshot (`validator.AgentStateSnapshot` via
`AgentState.to_snapshot`) -/

/-- `validator.AgentStateSnapshot`. -/
structure AgentStateSnapshot where
  search_count : Nat
  search_queries : List Str
  open_citation_count : Nat
  opened_citation_texts : List Str
  opened_citation_ids : List (Str × Str)
  search_snippets : List Str

/-- `AgentState.to_snapshot` — the snapshot constructor the executor
actually uses.  Note that `search_count` is the length of the raw
(duplicate-preserving) query list and `opened_citation_texts` holds the
stored (already clipped) texts. -/
def AgentState.to_snapshot (s : AgentState) : AgentStateSnapshot :=
  ⟨s.search_count,
   s.search_queries,
   s.opened_citations.length,
   s.opened_citations.map (fun c => c.text),
   s.opened_citations.map (fun c => (c.doc_id, c.chunk_id)),
   s.search_results.map (fun r => r.snippet)⟩

/-! ## Validator (`apps/agent/validator.py`) -/

/-- `validator.ValidationError` (an error or warning entry). -/
structure VError where
  code : Str
  message : Str
  severity : Str

/-- `validator.ValidationResult`. -/
structure ValidationResult where
  is_valid : Bool
  errors : List VError
  warnings : List VError

/-- `ValidationResult.add_error` — appends and invalidates. -/
def ValidationResult.add_error (r : ValidationResult) (code msg : Str) :
    ValidationResult :=
  ⟨false, r.errors ++ [⟨code, msg, strOf "error"⟩], r.warnings⟩

/-- `ValidationResult.add_warning` — appends without invalidating. -/
def ValidationResult.add_warning (r : ValidationResult) (code msg : Str) :
    ValidationResult :=
  ⟨r.is_valid, r.errors, r.warnings ++ [⟨code, msg, strOf "warning"⟩]⟩

/-- `validator.SUSPICIOUS_TERMS` (exactly the source list). -/
def SUSPICIOUS_TERMS : List Str :=
  [strOf "pg_reindex", strOf "reindex", strOf "vacuum",
   strOf "vacuum analyze", strOf "analyze table",
   strOf "kubectl", strOf "helm", strOf "docker compose",
   strOf "systemctl", strOf "ansible",
   strOf "drop table", strOf "truncate", strOf "alter table",
   strOf "create index",
   strOf "according to best practices", strOf "as recommended",
   strOf "typically"]

/-- `validator.validate_min_searches`.  Messages are assembled without the
Python `repr` formatting of the topic list, which no claim depends on. -/
def validate_min_searches (snapshot : AgentStateSnapshot)
    (constraints : PromptConstraints) (r : ValidationResult) :
    ValidationResult :=
  if 1 < constraints.min_searches ∧
      snapshot.search_count < constraints.min_searches then
    r.add_error (strOf "MIN_SEARCHES_UNMET")
      (strOf "Required at least " ++ natToStr constraints.min_searches ++
       strOf " separate searches, but only " ++
       natToStr snapshot.search_count ++ strOf " were performed.")
  else r

/-- `validator.validate_min_open_citations`. -/
def validate_min_open_citations (snapshot : AgentStateSnapshot)
    (constraints : PromptConstraints) (r : ValidationResult) :
    ValidationResult :=
  if 0 < constraints.min_open_citations ∧
      snapshot.open_citation_count < constraints.min_open_citations then
    r.add_error (strOf "MIN_OPEN_CITATIONS_UNMET")
      (strOf "Required to open at least " ++
       natToStr constraints.min_open_citations ++
       strOf " citation(s), but only " ++
       natToStr snapshot.open_citation_count ++ strOf " were opened.")
  else r

/-- `validator.validate_citation_references`.  The first loop runs over the
raw `citation_refs` list (duplicates preserved); the second over the set of
bracketed references found in the answer (modelled as first-occurrence
deduplication — only the set matters downstream). -/
def validate_citation_references (answer : Str) (citation_refs : List Nat)
    (snapshot : AgentStateSnapshot) (r : ValidationResult) :
    ValidationResult :=
  let found_refs := (findBracketRefs answer).dedup
  let max_valid_ref := snapshot.open_citation_count
  let r := citation_refs.foldl (fun acc ref =>
    if max_valid_ref < ref ∨ ref < 1 then
      acc.add_warning (strOf "INVALID_CITATION_REF")
        (strOf "Citation reference [" ++ natToStr ref ++
         strOf "] does not correspond to an opened citation.")
    else acc) r
  found_refs.foldl (fun acc ref =>
    if max_valid_ref < ref ∨ ref < 1 then
      acc.add_warning (strOf "HALLUCINATED_CITATION")
        (strOf "Citation [" ++ natToStr ref ++
         strOf "] in answer is not a valid opened citation.")
    else acc) r

/-- Python `" ".join(xs)`. -/
def joinWith (sep : Str) : List Str → Str
  | [] => []
  | [x] => x
  | x :: y :: rest => x ++ sep ++ joinWith sep (y :: rest)

/-- `validator.validate_grounded_claims`. -/
def validate_grounded_claims (answer : Str)
    (snapshot : AgentStateSnapshot) (r : ValidationResult) :
    ValidationResult :=
  let answer_lower := lowerStr answer
  let corpus := lowerStr (joinWith (strOf " ")
    (snapshot.opened_citation_texts ++ snapshot.search_snippets))
  if stripStr corpus = [] then
    if SUSPICIOUS_TERMS.any (fun t => containsSubStr t answer_lower) then
      r.add_error (strOf "UNGROUNDED_CLAIM_NO_CONTEXT")
        (strOf "Answer contains specific technical claims but no source material was retrieved.")
    else r
  else
    let ungrounded := SUSPICIOUS_TERMS.filter (fun t =>
      containsSubStr t answer_lower ∧ ¬ containsSubStr t corpus)
    if ¬ ungrounded.isEmpty then
      r.add_error (strOf "UNGROUNDED_CLAIM")
        (strOf "These terms appear in the answer but not in any retrieved source.")
    else r

/-- Three consecutive backticks. -/
def tripleTick : Str := [btick, btick, btick]

/-- `re.findall(r'```[^`]*```', answer)` — fenced code blocks. -/
def findFenced (s : Str) : List Str :=
  match s with
  | [] => []
  | c :: rest =>
    if isPrefixStr tripleTick (c :: rest) then
      let after3 := (c :: rest).drop 3
      let body := after3.takeWhile (fun ch => ch ≠ btick)
      let after := after3.drop body.length
      if isPrefixStr tripleTick after then
        (tripleTick ++ body ++ tripleTick) :: findFenced (after.drop 3)
      else findFenced rest
    else findFenced rest
termination_by s.length
decreasing_by
  · have h1 : after.length ≤ after3.length := by
      simp only [after, List.length_drop]
      omega
    have h2 : after3.length = rest.length + 1 - 3 := by
      simp [after3]
    simp only [List.length_drop, List.length_cons]
    omega
  · simp [List.length_cons]
  · simp [List.length_cons]

/-- `re.findall(r'`[^`]+`', answer)` — inline code spans. -/
def findInline (s : Str) : List Str :=
  match s with
  | [] => []
  | c :: rest =>
    if c = btick then
      let body := rest.takeWhile (fun ch => ch ≠ btick)
      if ¬ body.isEmpty ∧ isPrefixStr [btick] (rest.drop body.length) then
        (btick :: (body ++ [btick])) :: findInline (rest.drop (body.length + 1))
      else findInline rest
    else findInline rest
termination_by s.length
decreasing_by
  · simp only [List.length_drop, List.length_cons]
    omega
  · simp [List.length_cons]
  · simp [List.length_cons]

/-- `re.findall(r'"[^"]{10,}"', answer)` — long double-quoted spans. -/
def findQuotedLong (s : Str) : List Str :=
  match s with
  | [] => []
  | c :: rest =>
    if c = dquote then
      let body := rest.takeWhile (fun ch => ch ≠ dquote)
      if 10 ≤ body.length ∧ isPrefixStr [dquote] (rest.drop body.length) then
        (dquote :: (body ++ [dquote])) :: findQuotedLong (rest.drop (body.length + 1))
      else findQuotedLong rest
    else findQuotedLong rest
termination_by s.length
decreasing_by
  · simp only [List.length_drop, List.length_cons]
    omega
  · simp [List.length_cons]
  · simp [List.length_cons]

/-- Python `str.strip('`"')` — strip backticks and double quotes from both
ends. -/
def stripTickQuote (s : Str) : Str :=
  let isTq := fun c => c = btick ∨ c = dquote
  ((s.dropWhile isTq).reverse.dropWhile isTq).reverse

/-- `validator.validate_exact_quote_requirement`. -/
def validate_exact_quote_requirement (answer : Str)
    (constraints : PromptConstraints) (snapshot : AgentStateSnapshot)
    (r : ValidationResult) : ValidationResult :=
  if ¬ constraints.requires_exact_quote then r
  else if snapshot.open_citation_count = 0 then
    r.add_error (strOf "EXACT_QUOTE_NO_SOURCE")
      (strOf "Exact quote is required, but no citations were opened.")
  else
    let raw := findFenced answer ++ findInline answer ++ findQuotedLong answer
    let found_quotes := (raw.map (fun m => stripStr (stripTickQuote m))).filter
      (fun q => 10 ≤ q.length)
    if found_quotes.isEmpty then
      r.add_warning (strOf "NO_QUOTED_TEXT")
        (strOf "Exact quote was required, but no code blocks or quoted text found in answer.")
    else
      let corpus := joinWith [Char.ofNat 10] snapshot.opened_citation_texts
      let grounded_quotes := found_quotes.filter (fun q =>
        containsSubStr (collapseWs q) (collapseWs corpus) ∨
        containsSubStr q corpus)
      if grounded_quotes.isEmpty then
        r.add_warning (strOf "QUOTE_NOT_VERBATIM")
          (strOf "Found quoted text in answer, but it does not appear verbatim in opened citations.")
      else r

/-- The three "don't know" patterns of `validate_no_empty_answer` (literal
substring searches). -/
def DONT_KNOW_PATTERNS : List Str :=
  [strOf "i don" ++ [apos] ++ strOf "t know",
   strOf "i cannot find",
   strOf "no relevant information"]

/-- `validator.validate_no_empty_answer`. -/
def validate_no_empty_answer (answer : Str)
    (snapshot : AgentStateSnapshot) (r : ValidationResult) :
    ValidationResult :=
  if stripStr answer = [] then
    r.add_error (strOf "EMPTY_ANSWER")
      (strOf "Answer is empty. Provide a substantive response.")
  else if 0 < snapshot.open_citation_count ∨
      0 < snapshot.search_snippets.length then
    let answer_lower := lowerStr answer
    match DONT_KNOW_PATTERNS.find? (fun p =>
        containsSubStr p answer_lower ∧ answer.length < 100) with
    | some _ =>
      r.add_warning (strOf "UNEXPLAINED_DONT_KNOW")
        (strOf "Answer claims no information found, but sources were retrieved.")
    | none => r
  else r

/-- The insufficiency disclosure markers of
`validate_insufficiency_disclosure`. -/
def INSUFFICIENCY_MARKERS : List Str :=
  [strOf "insufficient documentation",
   strOf "not found in documents",
   strOf "missing from documentation",
   strOf "no documentation available",
   strOf "could not find"]

/-- `validator.validate_insufficiency_disclosure`. -/
def validate_insufficiency_disclosure (answer : Str)
    (constraints : PromptConstraints) (insufficiencies : List PyVal)
    (r : ValidationResult) : ValidationResult :=
  if ¬ constraints.requires_insufficiency_disclosure then r
  else
    let answer_lower := lowerStr answer
    let has_marker := INSUFFICIENCY_MARKERS.any
      (fun m => containsSubStr m answer_lower)
    if ¬ insufficiencies.isEmpty ∧ ¬ has_marker then
      r.add_warning (strOf "MISSING_INSUFFICIENCY_DISCLOSURE")
        (strOf "Information gaps were found but not explicitly disclosed.")
    else r

/-- `validator.validate_agent_state` — runs every check in source order on
an initially valid result. -/
def validate_agent_state (answer : Str) (citation_refs : List Nat)
    (constraints : PromptConstraints) (snapshot : AgentStateSnapshot)
    (insufficiencies : List PyVal) : ValidationResult :=
  let r : ValidationResult := ⟨true, [], []⟩
  let r := validate_no_empty_answer answer snapshot r
  let r := validate_min_searches snapshot constraints r
  let r := validate_min_open_citations snapshot constraints r
  let r := validate_citation_references answer citation_refs snapshot r
  let r := validate_grounded_claims answer snapshot r
  let r := validate_exact_quote_requirement answer constraints snapshot r
  validate_insufficiency_disclosure answer constraints insufficiencies r

/-- `validator.generate_reprompt_message` (string assembly; the exact text
only feeds the next prompt, which the oracle model abstracts). -/
def generate_reprompt_message (validation_result : ValidationResult)
    (remaining_tool_budget : Int) : Str :=
  strOf "VALIDATION FAILED - Your answer does not meet requirements. " ++
  joinWith (strOf "; ") (validation_result.errors.map (fun e => e.message)) ++
  (if 0 < remaining_tool_budget then
    strOf " You MUST output a TOOL_CALL to gather more information before finalizing."
  else
    strOf " Tool budget exhausted. Output FINAL with explicit insufficiency notes.")

/-! ## Trace entries (`executor_v2.TraceEntry`) -/

/-- `executor_v2.TraceType`. -/
inductive TraceType where
  | plan
  | tool_call
  | validation
  | reprompt
  | final
  | error
deriving DecidableEq

/-- `executor_v2.TraceEntry` (the `input` dictionary field is omitted: no
claim observes it). -/
structure TraceEntry where
  ttype : TraceType
  tool : Option Str
  output_summary : Option Str
  notes : Option Str
  error : Option Str
  validation_errors : Option (List Str)

/-- A `tool_call` trace entry with a summary. -/
def mkToolCallTrace (tool summary : Str) : TraceEntry :=
  ⟨.tool_call, some tool, some summary, none, none, none⟩

/-- A `tool_call` trace entry carrying only a note. -/
def mkToolCallNoteTrace (tool note : Str) : TraceEntry :=
  ⟨.tool_call, some tool, none, some note, none, none⟩

/-- An `error` trace entry attributed to a tool. -/
def mkToolErrorTrace (tool msg : Str) : TraceEntry :=
  ⟨.error, some tool, none, none, some msg, none⟩

/-- An `error` trace entry with no tool attribution. -/
def mkErrorTrace (msg : Str) : TraceEntry :=
  ⟨.error, none, none, none, some msg, none⟩

/-- A `final` trace entry with a note. -/
def mkFinalTrace (note : Str) : TraceEntry :=
  ⟨.final, none, none, some note, none, none⟩

/-- A `validation` trace entry. -/
def mkValidationTrace (errs : List Str) (note : Str) : TraceEntry :=
  ⟨.validation, none, none, some note, none, some errs⟩

/-- A `reprompt` trace entry. -/
def mkRepromptTrace (note : Str) : TraceEntry :=
  ⟨.reprompt, none, none, some note, none, none⟩

/-! ## Tool dispatch (`executor_v2.execute_tool`) -/

/-- Outcome of a real `tools.open_citation` invocation.  `tools.py` wraps
every unexpected exception into one of its three `ToolError` classes, so
these are the only outcomes the dispatcher can observe. -/
inductive ToolReply where
  | okOut (out : OpenCitationOutput)
  | errValidation (msg : Str)
  | errAccess (msg : Str)
  | errTool (msg : Str)

/-- The downstream tool layer for one run: the behaviour of
`tools.open_citation` as a function of the (docId, chunkId) pair, for the
fixed authenticated user of the run. -/
structure ToolEnv where
  openCit : Str → Str → ToolReply

/-- `tools.OpenCitationOutput.summary` (the float formatting of the
kilobyte variant is abbreviated; the string only feeds trace fields no
claim observes). -/
def OpenCitationOutput.summary (o : OpenCitationOutput) : Str :=
  if 1000 ≤ o.text.length then
    strOf "Retrieved KB from " ++ o.filename
  else
    strOf "Retrieved " ++ natToStr o.text.length ++ strOf " chars from " ++
      o.filename

/-- The dispatcher's invocation `search_docs(query, user_id, rerank=rerank)`.
`tools.search_docs` is declared as `def search_docs(query, user_id)`, so by
Python call semantics the invocation raises
`TypeError: search_docs() got an unexpected keyword argument` before the
tool body runs.  This is the modelled behaviour of that call site. -/
def search_docs_call : Except PyExc SearchDocsOutput :=
  .error (.typeError
    (strOf "search_docs() got an unexpected keyword argument rerank"))

/-- The hint appended to a `ToolValidationError` message on the
`open_citation` path: up to five complete identifier triples from search
results. -/
def availableChunksHint (s : AgentState) : Str :=
  let chunks := (s.search_results.take 5).map (fun r =>
    strOf "docId=" ++ r.doc_id ++ strOf ", chunkId=" ++ r.chunk_id ++
    strOf ", file=" ++ r.filename)
  if chunks.isEmpty then []
  else
    strOf " Available chunks from search results: " ++
    joinWith [Char.ofNat 10] chunks ++
    strOf " Please use the COMPLETE UUIDs shown above."

/-- `executor_v2.execute_tool`.  The counter is pre-incremented before the
`try` block.  Python exceptions other than the three `ToolError` classes
(`AttributeError` from `.get` on a non-dict input, `TypeError` from the
prefix resolver or from the `search_docs` call itself) escape the
dispatcher; the `error` side carries the state and trace as already mutated
(Python mutates them in place). -/
def execute_tool (env : ToolEnv) (tc : ToolCallAction)
    (state₀ : AgentState) (trace : List TraceEntry) :
    Except (PyExc × AgentState × List TraceEntry)
      (Bool × Str × AgentState × List TraceEntry) :=
  let state := state₀.bumpToolCalls
  if tc.tool = strOf "search_docs" then
    match pyGet tc.input (strOf "query") (.pyStr []) with
    | .error e => .error (e, state, trace)
    | .ok query =>
      if ¬ pyTruthy query then
        .ok (false, strOf "Query is required", state, trace)
      else
        match search_docs_call with
        | .error e => .error (e, state, trace)
        | .ok _ =>
          -- unreachable: the call site raises TypeError
          .ok (false, strOf "unreachable", state, trace)
  else if tc.tool = strOf "open_citation" then
    match pyGet tc.input (strOf "docId") (.pyStr []) with
    | .error e => .error (e, state, trace)
    | .ok doc_v =>
      match pyGet tc.input (strOf "chunkId") (.pyStr []) with
      | .error e => .error (e, state, trace)
      | .ok chunk_v =>
        if ¬ pyTruthy doc_v ∨ ¬ pyTruthy chunk_v then
          .ok (false, strOf "docId and chunkId are required", state, trace)
        else
          match find_full_uuid_from_pfx_py doc_v state.get_known_doc_ids with
          | .error e => .error (e, state, trace)
          | .ok rdoc =>
            match find_full_uuid_from_pfx_py chunk_v
                state.get_known_chunk_ids with
            | .error e => .error (e, state, trace)
            | .ok rchunk =>
              -- both values are strings here: a truthy non-string would
              -- have raised inside the resolver
              let odoc := match doc_v with | .pyStr s => s | _ => []
              let ochunk := match chunk_v with | .pyStr s => s | _ => []
              let ids :=
                match rdoc, rchunk with
                | some d, some ch => (d, ch)
                | some d, none =>
                  match state.search_results.find?
                      (fun (r : SearchResultItem) => r.doc_id = d) with
                  | some r => (d, r.chunk_id)
                  | none => (d, ochunk)
                | none, _ => (odoc, ochunk)
              match env.openCit ids.1 ids.2 with
              | .okOut result =>
                let state := state.add_opened_citation result
                let trace := trace ++
                  [mkToolCallTrace (strOf "open_citation") result.summary]
                .ok (true, result.summary, state, trace)
              | .errValidation msg =>
                let error_msg := msg ++ availableChunksHint state
                let trace := trace ++ [mkToolErrorTrace (strOf "open_citation")
                  (strOf "UUID resolution failed: " ++ msg.take 80)]
                let state := { state with notes := state.notes ++
                  [strOf "open_citation failed - try using complete UUIDs from search results"] }
                .ok (false, error_msg, state, trace)
              | .errAccess msg =>
                let trace := trace ++
                  [mkToolErrorTrace (strOf "open_citation") (msg.take 100)]
                let state := { state with notes := state.notes ++
                  [strOf "Access denied: " ++ msg] }
                .ok (false, msg, state, trace)
              | .errTool msg =>
                let trace := trace ++
                  [mkToolErrorTrace (strOf "open_citation") (msg.take 100)]
                .ok (false, msg, state, trace)
  else
    let trace := trace ++ [mkErrorTrace (strOf "Unknown tool: " ++ tc.tool)]
    .ok (false, strOf "Unknown tool: " ++ tc.tool, state, trace)

/-! ## The bounded executor loop (`executor_v2.run_agent_v2`, step 4)

The oracle is modelled as a function from the index of the `call_llm`
invocation to its outcome: a transport error, or a response carrying both
the raw text (consumed by the synthesis fallback) and the outcome of the
brace-extraction/decoding stage (consumed by the action parser).  In the
source the prompt of each call is a function of the run history, and the
run is deterministic given the oracle's replies, so indexing replies by
call count captures every realizable run.  Prompt assembly
(`build_iteration_prompt`) only feeds the oracle and is therefore not
modelled. -/

/-- One reply of the chat oracle. -/
inductive LLMReply where
  | err (msg : Str)
  | okResp (raw : Str) (decoded : ParserInput)

/-- The external world of one run: the oracle and the tool layer. -/
structure Env where
  llm : Nat → LLMReply
  tools : ToolEnv

/-- The mutable locals of the executor loop. -/
structure LoopState where
  state : AgentState
  trace : List TraceEntry
  iteration : Nat
  reprompt_count : Nat
  json_error_count : Nat
  reprompt_message : Option Str
  llm_calls : Nat

/-- Why the loop stopped. -/
inductive LoopExit where
  | validatedFinal (fa : FinalAction)
  | acceptedAfterMaxReprompts (fa : FinalAction)
  | llmTransportError
  | jsonErrors
  | toolBudgetExhausted
  | loopCondFailed

/-- Loop termination: a normal exit, or an uncaught Python exception
escaping the loop (and, through `run_agent_v2`, the per-run boundary). -/
inductive RunTermination where
  | exited (e : LoopExit)
  | crashed (exc : PyExc)

/-- The safety auto-open of the validation gate: walk the top search hits,
re-checking the budget before each open, opening via the tool layer and
counting successes; every exception is swallowed (`except Exception:
continue`).  Returns the new state, the appended trace and the number of
chunks opened. -/
def autoOpenGo (env : ToolEnv) :
    List SearchResultItem → AgentState → List TraceEntry → Nat →
    AgentState × List TraceEntry × Nat
  | [], s, t, n => (s, t, n)
  | r :: hits, s, t, n =>
    if s.remaining_tool_budget ≤ 0 then (s, t, n)
    else
      match env.openCit r.doc_id r.chunk_id with
      | .okOut result =>
        let s := (s.add_opened_citation result).bumpToolCalls
        let t := t ++ [mkToolCallTrace (strOf "open_citation") result.summary]
        autoOpenGo env hits s t (n + 1)
      | _ => autoOpenGo env hits s t n

/-- `executor_v2.Insufficiency.to_dict`. -/
def Insufficiency.to_dict (i : Insufficiency) : PyVal :=
  .pyDict [(strOf "section", i.sectionName), (strOf "missing", i.missing),
           (strOf "queriesTried", i.queries_tried)]

/-- `ValidationResult.error_summary`. -/
def ValidationResult.error_summary (r : ValidationResult) : Str :=
  if r.errors.isEmpty then strOf "No errors."
  else joinWith [Char.ofNat 10] (r.errors.map (fun e => strOf "- " ++ e.message))

/-- Result of the validation gate: continue looping with a new state, or
exit/crash. -/
inductive GateStep where
  | contG (ls : LoopState)
  | stopG (t : RunTermination) (ls : LoopState)

/-- Snapshot, validation and the accept/reprompt decision of the gate. -/
def validationGateCheck (c : PromptConstraints) (fa : FinalAction)
    (ls : LoopState) : GateStep :=
  match fa.answer with
  | .pyStr ans =>
    let snapshot := ls.state.to_snapshot
    let citation_refs := findBracketRefs ans
    let validation := validate_agent_state ans citation_refs c snapshot
      (ls.state.insufficiencies.map Insufficiency.to_dict)
    if validation.is_valid then
      .stopG (.exited (.validatedFinal fa))
        { ls with trace := ls.trace ++ [mkFinalTrace
          (strOf "Validated with " ++
           natToStr ls.state.opened_citations.length ++
           strOf " citations")] }
    else
      let rc := ls.reprompt_count + 1
      let tr := ls.trace ++ [mkValidationTrace
        (validation.errors.map (fun e => e.message))
        (strOf "Validation failed (attempt " ++ natToStr rc ++
         strOf "/" ++ natToStr MAX_REPROMPTS ++ strOf ")")]
      if MAX_REPROMPTS ≤ rc then
        .stopG (.exited (.acceptedAfterMaxReprompts fa))
          { ls with reprompt_count := rc, trace := tr ++ [mkFinalTrace
            (strOf "Accepted after max reprompts (may have validation issues)")] }
      else
        .contG { ls with
          reprompt_count := rc,
          reprompt_message := some (generate_reprompt_message validation
            ls.state.remaining_tool_budget),
          trace := tr ++
            [mkRepromptTrace (validation.error_summary.take 200)] }
  | _ =>
    .stopG (.crashed (.typeError
      (strOf "expected string or bytes-like object"))) ls

/-- The validation gate of the executor loop (the `action_type == "final"`
branch): safety auto-open, then validation, acceptance, or reprompt.
`re.findall` on a non-string answer raises `TypeError` (reachable through
the parser's inference branch). -/
def validationGate (env : Env) (c : PromptConstraints) (fa : FinalAction)
    (ls : LoopState) : GateStep :=
  if ls.state.opened_citations.length = 0 ∧
      0 < ls.state.search_results.length ∧
      0 < ls.state.remaining_tool_budget then
    let tr := ls.trace ++ [mkToolCallNoteTrace (strOf "auto_open")
      (strOf "Auto-opening top search results before finalization")]
    let res := autoOpenGo env.tools (ls.state.search_results.take 3)
      ls.state tr 0
    let ls := { ls with state := res.1, trace := res.2.1 }
    if 0 < res.2.2 then
      let msg := strOf "I have now opened " ++ natToStr res.2.2 ++
        strOf " citation(s) for you. Please review the OPENED CITATIONS section and provide a proper answer using the information found there. Include citation markers."
      .contG { ls with reprompt_message := some msg }
    else
      validationGateCheck c fa ls
  else
    validationGateCheck c fa ls

/-- Outcome of one pass through the loop body: continue, or leave the loop
(normally or exceptionally). -/
inductive StepOut where
  | contS (ls : LoopState)
  | stopS (t : RunTermination) (ls : LoopState)

/-- One pass through the body of the executor loop (everything inside the
`while`, after its guard): render prompt (not modelled: it only feeds the
oracle), clear the reprompt slot, call the oracle, parse, and dispatch the
parsed action. -/
def loopStep (env : Env) (c : PromptConstraints) (ls : LoopState) :
    StepOut :=
  let ls := { ls with iteration := ls.iteration + 1,
                      reprompt_message := none }
  match env.llm ls.llm_calls with
  | .err m =>
    .stopS (.exited .llmTransportError)
      { ls with llm_calls := ls.llm_calls + 1,
                trace := ls.trace ++
                  [mkErrorTrace (strOf "LLM error: " ++ m.take 100)] }
  | .okResp _raw decoded =>
    let ls := { ls with llm_calls := ls.llm_calls + 1 }
    match parse_strict_json_action decoded with
    | .error exc => .stopS (.crashed exc) ls
    | .ok (.invalid reason) =>
      let jec := ls.json_error_count + 1
      if 2 ≤ jec then
        .stopS (.exited .jsonErrors)
          { ls with json_error_count := jec,
                    state := { ls.state with notes := ls.state.notes ++
                      [strOf "Model output malformed: " ++ reason] } }
      else
        .contS { ls with json_error_count := jec,
                         reprompt_message := some (strOf "Invalid JSON: " ++
                           reason ++ strOf " Output ONLY valid JSON.") }
    | .ok (.toolCall tc) =>
      if ls.state.remaining_tool_budget ≤ 0 then
        .stopS (.exited .toolBudgetExhausted)
          { ls with state := { ls.state with notes := ls.state.notes ++
            [strOf "Tool budget exhausted"] } }
      else
        match execute_tool env.tools tc ls.state ls.trace with
        | .error res =>
          .stopS (.crashed res.1)
            { ls with state := res.2.1, trace := res.2.2 }
        | .ok res =>
          let ls := { ls with state := res.2.2.1, trace := res.2.2.2 }
          let ls :=
            if res.1 then ls
            else { ls with state := { ls.state with
              notes := ls.state.notes ++
                [strOf "Tool failed: " ++ res.2.1] } }
          .contS ls
    | .ok (.finalAct fa) =>
      match validationGate env c fa ls with
      | .contG ls => .contS ls
      | .stopG t ls => .stopS t ls

/-- The executor loop, by remaining iterations (`fuel` starts at
`MAX_ITERATIONS` and `iteration` at `0`, so the `while` guard
`iteration < MAX_ITERATIONS` is exactly `0 < fuel`; the second conjunct of
the guard is the budget test). -/
def loopGo (env : Env) (c : PromptConstraints) :
    Nat → LoopState → RunTermination × LoopState
  | 0, ls => (.exited .loopCondFailed, ls)
  | Nat.succ fuel, ls =>
    if MAX_TOOL_CALLS ≤ ls.state.tool_calls_used then
      (.exited .loopCondFailed, ls)
    else
      match loopStep env c ls with
      | .contS ls => loopGo env c fuel ls
      | .stopS t ls => (t, ls)

/-- The loop of `run_agent_v2`, started on a fresh state. -/
def runLoop (env : Env) (c : PromptConstraints) :
    RunTermination × LoopState :=
  loopGo env c MAX_ITERATIONS ⟨AgentState.init c, [], 0, 0, 0, none, 0⟩

/-! ## Loop invariants -/

/-- The budget invariant on an agent state: the counter, and every value it
ever took (the ghost log), is bounded by `MAX_TOOL_CALLS`. -/
def BudgetOK (s : AgentState) : Prop :=
  s.tool_calls_used ≤ MAX_TOOL_CALLS ∧
  ∀ v ∈ s.used_log, v ≤ MAX_TOOL_CALLS

/-- The state after a dispatch, on either outcome (Python mutates the state
object in place, so the exceptional path sees the mutations too). -/
def dispatchState :
    Except (PyExc × AgentState × List TraceEntry)
      (Bool × Str × AgentState × List TraceEntry) → AgentState
  | .ok r => r.2.2.1
  | .error e => e.2.1

theorem execute_tool_counter (env : ToolEnv) (tc : ToolCallAction)
    (st : AgentState) (tr : List TraceEntry) :
    (dispatchState (execute_tool env tc st tr)).tool_calls_used =
      st.tool_calls_used + 1 ∧
    (dispatchState (execute_tool env tc st tr)).used_log =
      st.used_log ++ [st.tool_calls_used + 1] := by
  rcases hr : execute_tool env tc st tr with r | r
  all_goals unfold execute_tool at hr
  all_goals (repeat' (first | (split at hr) | (dsimp only at hr)))
  all_goals (try (cases hr))
  all_goals
    simp_all [dispatchState, AgentState.bumpToolCalls,
      AgentState.add_opened_citation]

theorem autoOpenGo_budget (env : ToolEnv) :
    ∀ (hits : List SearchResultItem) (s : AgentState)
      (t : List TraceEntry) (n : Nat), BudgetOK s →
      BudgetOK (autoOpenGo env hits s t n).1 := by
  intro hits
  induction hits with
  | nil => intro s t n hb; simpa [autoOpenGo] using hb
  | cons r hits ih =>
    intro s t n hb
    rw [autoOpenGo]
    by_cases hrem : s.remaining_tool_budget ≤ 0
    · simpa [hrem] using hb
    · have hlt : s.tool_calls_used < MAX_TOOL_CALLS := by
        unfold AgentState.remaining_tool_budget at hrem
        omega
      simp only [hrem, if_false]
      rcases henv : env.openCit r.doc_id r.chunk_id with out | m | m | m
      · apply ih
        constructor
        · simp [AgentState.bumpToolCalls, AgentState.add_opened_citation]
          omega
        · intro v hv
          simp [AgentState.bumpToolCalls, AgentState.add_opened_citation] at hv
          rcases hv with hv | hv
          · exact hb.2 v hv
          · omega
      · exact ih s t n hb
      · exact ih s t n hb
      · exact ih s t n hb

/-- The loop state carried by a gate outcome. -/
def gateLS : GateStep → LoopState
  | .contG ls => ls
  | .stopG _ ls => ls

/-- The termination carried by a gate outcome, when it stops the loop. -/
def gateT : GateStep → Option RunTermination
  | .contG _ => none
  | .stopG t _ => some t

theorem validationGateCheck_fields (c : PromptConstraints)
    (fa : FinalAction) (ls : LoopState) :
    (gateLS (validationGateCheck c fa ls)).state = ls.state ∧
    (gateLS (validationGateCheck c fa ls)).json_error_count =
      ls.json_error_count ∧
    (gateLS (validationGateCheck c fa ls)).llm_calls = ls.llm_calls ∧
    gateT (validationGateCheck c fa ls) ≠
      some (.exited .jsonErrors) := by
  unfold validationGateCheck
  repeat' (first | split | (dsimp only))
  all_goals simp [gateLS, gateT]

theorem validationGate_fields (env : Env) (c : PromptConstraints)
    (fa : FinalAction) (ls : LoopState) :
    (BudgetOK ls.state → BudgetOK (gateLS (validationGate env c fa ls)).state) ∧
    (gateLS (validationGate env c fa ls)).json_error_count =
      ls.json_error_count ∧
    (gateLS (validationGate env c fa ls)).llm_calls = ls.llm_calls ∧
    gateT (validationGate env c fa ls) ≠ some (.exited .jsonErrors) := by
  unfold validationGate
  by_cases hcond : ls.state.opened_citations.length = 0 ∧
      0 < ls.state.search_results.length ∧ 0 < ls.state.remaining_tool_budget
  · simp only [hcond, if_true, and_self]
    set tr := ls.trace ++ [mkToolCallNoteTrace (strOf "auto_open")
      (strOf "Auto-opening top search results before finalization")] with htr
    set res := autoOpenGo env.tools (ls.state.search_results.take 3)
      ls.state tr 0 with hres
    have hbud : BudgetOK ls.state → BudgetOK res.1 := by
      intro hb
      exact autoOpenGo_budget env.tools _ ls.state tr 0 hb
    by_cases hn : 0 < res.2.2
    · simp only [hn, if_true]
      exact ⟨fun hb => hbud hb, rfl, rfl, by simp [gateT]⟩
    · simp only [hn, if_false]
      have h := validationGateCheck_fields c fa
        { ls with state := res.1, trace := res.2.1 }
      refine ⟨fun hb => ?_, h.2.1, h.2.2.1, h.2.2.2⟩
      rw [h.1]
      exact hbud hb
  · simp only [hcond, if_false]
    have h := validationGateCheck_fields c fa ls
    exact ⟨fun hb => by rw [h.1]; exact hb, h.2⟩

/-- Does an oracle reply parse to an `Invalid` action?  (A transport error
or a parser exception is not an invalid parse.) -/
def replyInvalid (r : LLMReply) : Bool :=
  match r with
  | .err _ => false
  | .okResp _ decoded =>
    match parse_strict_json_action decoded with
    | .ok (.invalid _) => true
    | _ => false

/-- The number of oracle replies among the first `n` that parse to
`Invalid`. -/
def invalidCountUpTo (env : Env) (n : Nat) : Nat :=
  ((List.range n).filter (fun i => replyInvalid (env.llm i))).length

theorem invalidCountUpTo_succ (env : Env) (n : Nat) :
    invalidCountUpTo env (n + 1) =
      invalidCountUpTo env n + (if replyInvalid (env.llm n) then 1 else 0) := by
  unfold invalidCountUpTo
  rw [List.range_succ, List.filter_append]
  by_cases h : replyInvalid (env.llm n)
  · simp [h]
  · simp [h]

/-- The loop state carried by a step outcome. -/
def stepLS : StepOut → LoopState
  | .contS ls => ls
  | .stopS _ ls => ls

/-- The termination carried by a step outcome, when it stops the loop. -/
def stepT : StepOut → Option RunTermination
  | .contS _ => none
  | .stopS t _ => some t

theorem loopStep_inv (env : Env) (c : PromptConstraints) (ls : LoopState)
    (hb : BudgetOK ls.state)
    (hcnt : ls.json_error_count = invalidCountUpTo env ls.llm_calls)
    (hle : ls.json_error_count ≤ 1)
    (hguard : ls.state.tool_calls_used < MAX_TOOL_CALLS) :
    BudgetOK (stepLS (loopStep env c ls)).state ∧
    (stepLS (loopStep env c ls)).json_error_count =
      invalidCountUpTo env (stepLS (loopStep env c ls)).llm_calls ∧
    (stepT (loopStep env c ls) = some (.exited .jsonErrors) →
      (stepLS (loopStep env c ls)).json_error_count = 2) ∧
    (stepT (loopStep env c ls) ≠ some (.exited .jsonErrors) →
      (stepLS (loopStep env c ls)).json_error_count ≤ 1) := by
  have hccons : ∀ r : LLMReply, env.llm ls.llm_calls = r →
      replyInvalid r = false →
      ls.json_error_count = invalidCountUpTo env (ls.llm_calls + 1) := by
    intro r hr hinv
    rw [invalidCountUpTo_succ, hr, hinv]
    simpa using hcnt
  unfold loopStep
  dsimp only
  split
  · -- transport error
    rename_i m henv
    dsimp only [stepLS, stepT]
    exact ⟨hb, hccons (.err m) henv rfl, by simp, fun _ => hle⟩
  · rename_i raw decoded henv
    split
    · -- parser exception: the loop crashes
      rename_i exc hp
      dsimp only [stepLS, stepT]
      refine ⟨hb, hccons (.okResp raw decoded) henv ?_, by simp, fun _ => hle⟩
      simp [replyInvalid, hp]
    · -- invalid parse
      rename_i reason hp
      have hinv : replyInvalid (LLMReply.okResp raw decoded) = true := by
        simp [replyInvalid, hp]
      have hc1 : ls.json_error_count + 1 =
          invalidCountUpTo env (ls.llm_calls + 1) := by
        rw [invalidCountUpTo_succ, henv, hinv]
        simp
        omega
      by_cases h2 : 2 ≤ ls.json_error_count + 1
      · rw [if_pos h2]
        dsimp only [stepLS, stepT]
        refine ⟨⟨hb.1, fun v hv => hb.2 v hv⟩, hc1, fun _ => by omega,
          fun habs => ?_⟩
        exact absurd rfl habs
      · rw [if_neg h2]
        dsimp only [stepLS, stepT]
        exact ⟨hb, hc1, by simp, fun _ => by omega⟩
    · -- tool call
      rename_i tc hp
      have hc1 : ls.json_error_count =
          invalidCountUpTo env (ls.llm_calls + 1) := by
        refine hccons (.okResp raw decoded) henv ?_
        simp [replyInvalid, hp]
      by_cases hbud : ls.state.remaining_tool_budget ≤ 0
      · rw [if_pos hbud]
        dsimp only [stepLS, stepT]
        exact ⟨⟨hb.1, fun v hv => hb.2 v hv⟩, hc1, by simp, fun _ => hle⟩
      · rw [if_neg hbud]
        have hcount := execute_tool_counter env.tools tc ls.state ls.trace
        have hbud2 : BudgetOK
            (dispatchState (execute_tool env.tools tc ls.state ls.trace)) := by
          constructor
          · rw [hcount.1]; omega
          · intro v hv
            rw [hcount.2] at hv
            simp at hv
            rcases hv with hv | hv
            · exact hb.2 v hv
            · omega
        rcases het : execute_tool env.tools tc ls.state ls.trace with
          res | res
        · rw [het] at hbud2
          dsimp only [stepLS, stepT]
          exact ⟨hbud2, hc1, by simp, fun _ => hle⟩
        · rw [het] at hbud2
          dsimp only
          cases hsucc : res.1
          · rw [if_neg (by simp [hsucc])]
            dsimp only [stepLS, stepT]
            exact ⟨⟨hbud2.1, fun v hv => hbud2.2 v hv⟩, hc1, by simp,
              fun _ => hle⟩
          · rw [if_pos (by simp [hsucc])]
            dsimp only [stepLS, stepT]
            exact ⟨hbud2, hc1, by simp, fun _ => hle⟩
    · -- final action: the validation gate
      rename_i fa hp
      have hc1 : ls.json_error_count =
          invalidCountUpTo env (ls.llm_calls + 1) := by
        refine hccons (.okResp raw decoded) henv ?_
        simp [replyInvalid, hp]
      split
      · rename_i ls2 hgate
        have hg := validationGate_fields env c fa
          { ls with iteration := ls.iteration + 1, reprompt_message := none,
                    llm_calls := ls.llm_calls + 1 }
        rw [hgate] at hg
        simp only [gateLS, gateT] at hg
        dsimp only [stepLS, stepT]
        refine ⟨hg.1 hb, ?_, by simp, fun _ => ?_⟩
        · rw [hg.2.1, hg.2.2.1]
          exact hc1
        · rw [hg.2.1]
          exact hle
      · rename_i t ls2 hgate
        have hg := validationGate_fields env c fa
          { ls with iteration := ls.iteration + 1, reprompt_message := none,
                    llm_calls := ls.llm_calls + 1 }
        rw [hgate] at hg
        simp only [gateLS, gateT] at hg
        dsimp only [stepLS, stepT]
        refine ⟨hg.1 hb, ?_, ?_, fun _ => ?_⟩
        · rw [hg.2.1, hg.2.2.1]
          exact hc1
        · intro habs
          injection habs with habs2
          exact absurd (congrArg some habs2) hg.2.2.2
        · rw [hg.2.1]
          exact hle

theorem loopGo_inv (env : Env) (c : PromptConstraints) :
    ∀ (fuel : Nat) (ls : LoopState), BudgetOK ls.state →
      ls.json_error_count = invalidCountUpTo env ls.llm_calls →
      ls.json_error_count ≤ 1 →
      BudgetOK (loopGo env c fuel ls).2.state ∧
      (loopGo env c fuel ls).2.json_error_count =
        invalidCountUpTo env (loopGo env c fuel ls).2.llm_calls ∧
      ((loopGo env c fuel ls).1 = .exited .jsonErrors →
        (loopGo env c fuel ls).2.json_error_count = 2) ∧
      ((loopGo env c fuel ls).1 ≠ .exited .jsonErrors →
        (loopGo env c fuel ls).2.json_error_count ≤ 1) := by
  intro fuel
  induction fuel with
  | zero =>
    intro ls hb hcnt hle
    refine ⟨hb, hcnt, fun habs => ?_, fun _ => hle⟩
    simp [loopGo] at habs
  | succ fuel ih =>
    intro ls hb hcnt hle
    rw [loopGo]
    by_cases hguard : MAX_TOOL_CALLS ≤ ls.state.tool_calls_used
    · simp only [hguard, if_true]
      exact ⟨hb, hcnt, fun habs => by simp at habs, fun _ => hle⟩
    · simp only [hguard, if_false]
      have hstep := loopStep_inv env c ls hb hcnt hle (by omega)
      rcases hs : loopStep env c ls with ls2 | ⟨t, ls2⟩
      · rw [hs] at hstep
        simp only [stepLS, stepT] at hstep
        show BudgetOK (loopGo env c fuel ls2).2.state ∧ _
        exact ih ls2 hstep.1 hstep.2.1 (hstep.2.2.2 (by simp))
      · rw [hs] at hstep
        simp only [stepLS, stepT] at hstep
        show BudgetOK ls2.state ∧ ls2.json_error_count =
            invalidCountUpTo env ls2.llm_calls ∧
          (t = RunTermination.exited LoopExit.jsonErrors →
            ls2.json_error_count = 2) ∧
          (t ≠ RunTermination.exited LoopExit.jsonErrors →
            ls2.json_error_count ≤ 1)
        refine ⟨hstep.1, hstep.2.1, fun habs => ?_, fun habs => ?_⟩
        · exact hstep.2.2.1 (by rw [habs])
        · refine hstep.2.2.2 fun habs2 => ?_
          apply habs
          injection habs2 with h

/-! ## Citation grounding (`executor_v2.ground_citations_from_state`,
`executor_v2.fallback_citations_from_search` and the result assembly of
`run_agent_v2`) -/

/-- `executor_v2.GroundedCitation`. -/
structure GroundedCitation where
  doc_id : Str
  chunk_id : Str
  chunk_index : Int
  snippet : Str
  filename : Str
  score : Rat
deriving DecidableEq

/-- `citation_by_num[n]`: dict comprehension over the opened citations —
on duplicate keys the last entry wins. -/
def lookup_by_num (opened : List OpenedCitation) (n : Nat) :
    Option OpenedCitation :=
  opened.reverse.find? (fun c => c.citation_num = n)

/-- `citation_by_id[(docId, chunkId)]` — last entry wins. -/
def lookup_by_id (opened : List OpenedCitation) (key : Str × Str) :
    Option OpenedCitation :=
  opened.reverse.find? (fun c => c.doc_id = key.1 ∧ c.chunk_id = key.2)

/-- A `GroundedCitation` built from an opened chunk
(`snippet = text[:200]`, score left at its dataclass default `0.0`). -/
def groundedOfOpened (c : OpenedCitation) : GroundedCitation :=
  ⟨c.doc_id, c.chunk_id, c.chunk_index, c.text.take 200, c.filename, 0⟩

/-- Python iteration over a decoded value (`for x in v`): lists yield
elements, strings yield one-character strings, dicts yield their keys;
anything else raises `TypeError`. -/
def pyIterate : PyVal → Except PyExc (List PyVal)
  | .pyList xs => .ok xs
  | .pyStr s => .ok (s.map (fun ch => .pyStr [ch]))
  | .pyDict fs => .ok (fs.map (fun kv => .pyStr kv.1))
  | _ => .error (.typeError (strOf "object is not iterable"))

/-- The literal string `"[n]"` for `re.sub(rf'\[{ref}\]', '', ...)`. -/
def bracketLit (n : Nat) : Str := '[' :: (natToStr n ++ [']'])

/-- The loop over `[N]` markers found in the answer: ground references to
opened citation numbers (deduplicating by identity), strip the rest. -/
def groundRefsGo (opened : List OpenedCitation) :
    List Nat → Str → List GroundedCitation → List (Str × Str) →
    Str × List GroundedCitation
  | [], cleaned, grounded, _ => (cleaned, grounded)
  | ref :: rest, cleaned, grounded, used =>
    match lookup_by_num opened ref with
    | some c =>
      let key := (c.doc_id, c.chunk_id)
      if used.contains key then
        groundRefsGo opened rest cleaned grounded used
      else
        groundRefsGo opened rest cleaned (grounded ++ [groundedOfOpened c])
          (used ++ [key])
    | none =>
      groundRefsGo opened rest (removeAllLit (bracketLit ref) cleaned)
        grounded used

/-- The loop over `used_citations` entries of the accepted `FINAL`:
dictionary entries whose `(docId, chunkId)` pair matches an opened
citation are grounded (first occurrence wins); everything else is
ignored. -/
def groundUsedGo (opened : List OpenedCitation) :
    List PyVal → List GroundedCitation → List (Str × Str) →
    List GroundedCitation × List (Str × Str)
  | [], grounded, used => (grounded, used)
  | cite_ref :: rest, grounded, used =>
    match cite_ref with
    | .pyDict fields =>
      let dv := dictGet fields (strOf "docId") (.pyStr [])
      let cv := dictGet fields (strOf "chunkId") (.pyStr [])
      match dv, cv with
      | .pyStr d, .pyStr ch =>
        match lookup_by_id opened (d, ch) with
        | some c =>
          if used.contains (d, ch) then groundUsedGo opened rest grounded used
          else groundUsedGo opened rest (grounded ++ [groundedOfOpened c])
            (used ++ [(d, ch)])
        | none => groundUsedGo opened rest grounded used
      | _, _ => groundUsedGo opened rest grounded used
    | _ => groundUsedGo opened rest grounded used

/-- `executor_v2.ground_citations_from_state`: map explicit `used_citations`
and `[N]` markers to verified opened citations, strip hallucinated markers,
collapse whitespace.  Raises `TypeError` when `used_citations` is not
iterable or the answer is not a string (possible through the parser's
inference branch). -/
def ground_citations_from_state (fa : FinalAction) (state : AgentState) :
    Except PyExc (Str × List GroundedCitation) :=
  match pyIterate fa.used_citations with
  | .error e => .error e
  | .ok ucs =>
    let fromUsed := groundUsedGo state.opened_citations ucs [] []
    match fa.answer with
    | .pyStr answer =>
      let found_refs := findBracketRefs answer
      let res := groundRefsGo state.opened_citations found_refs answer
        fromUsed.1 fromUsed.2
      .ok (collapseWs res.1, res.2)
    | _ => .error (.typeError (strOf "expected string or bytes-like object"))

/-- `executor_v2.fallback_citations_from_search`: up to three citations
derived from the top search hits. -/
def fallback_citations_from_search (state : AgentState) :
    List GroundedCitation :=
  (state.search_results.take 3).map (fun r =>
    ⟨r.doc_id, r.chunk_id, r.chunk_index, r.snippet, r.filename, r.score⟩)

/-- The result assembly of `run_agent_v2` when the loop accepted a `FINAL`
(source lines 1217–1223): ground the citations, and if the grounded list is
empty while search results exist, substitute the search fallback list. -/
def final_path_result (fa : FinalAction) (state : AgentState) :
    Except PyExc (Str × List GroundedCitation) :=
  match ground_citations_from_state fa state with
  | .error e => .error e
  | .ok res =>
    if res.2.isEmpty ∧ ¬ state.search_results.isEmpty then
      .ok (res.1, fallback_citations_from_search state)
    else
      .ok res

/-- The citations attached by the synthesis fallback (source lines
1191–1203): all opened citations, else the search fallback list. -/
def synthesis_citations (state : AgentState) : List GroundedCitation :=
  if ¬ state.opened_citations.isEmpty then
    state.opened_citations.map groundedOfOpened
  else fallback_citations_from_search state

/-- A grounded citation whose `(docId, chunkId)` pair is the identity of
some opened chunk. -/
def matchesOpened (opened : List OpenedCitation) (g : GroundedCitation) :
    Prop :=
  ∃ oc ∈ opened, oc.doc_id = g.doc_id ∧ oc.chunk_id = g.chunk_id

theorem lookup_by_num_mem (opened : List OpenedCitation) (n : Nat)
    (c : OpenedCitation) (h : lookup_by_num opened n = some c) :
    c ∈ opened := by
  unfold lookup_by_num at h
  have := List.mem_of_find?_eq_some h
  simpa using this

theorem lookup_by_id_mem (opened : List OpenedCitation) (key : Str × Str)
    (c : OpenedCitation) (h : lookup_by_id opened key = some c) :
    c ∈ opened := by
  unfold lookup_by_id at h
  have := List.mem_of_find?_eq_some h
  simpa using this

theorem groundUsedGo_grounded (opened : List OpenedCitation) :
    ∀ (l : List PyVal) (grounded : List GroundedCitation)
      (used : List (Str × Str)),
      (∀ g ∈ grounded, matchesOpened opened g) →
      ∀ g ∈ (groundUsedGo opened l grounded used).1,
        matchesOpened opened g := by
  intro l
  induction l with
  | nil =>
    intro grounded used hg g hmem
    exact hg g hmem
  | cons x rest ih =>
    intro grounded used hg g hmem
    unfold groundUsedGo at hmem
    repeat' (first | (split at hmem) | (dsimp only at hmem))
    all_goals first
      | exact ih _ _ hg g hmem
      | (rename_i c heq hused
         refine ih _ _ ?_ g hmem
         intro g2 hg2
         rcases List.mem_append.1 hg2 with h2 | h2
         · exact hg g2 h2
         · rcases List.mem_singleton.1 h2 with rfl
           exact ⟨c, lookup_by_id_mem opened _ c heq, rfl, rfl⟩)

theorem groundRefsGo_grounded (opened : List OpenedCitation) :
    ∀ (refs : List Nat) (cleaned : Str)
      (grounded : List GroundedCitation) (used : List (Str × Str)),
      (∀ g ∈ grounded, matchesOpened opened g) →
      ∀ g ∈ (groundRefsGo opened refs cleaned grounded used).2,
        matchesOpened opened g := by
  intro refs
  induction refs with
  | nil =>
    intro cleaned grounded used hg g hmem
    exact hg g hmem
  | cons ref rest ih =>
    intro cleaned grounded used hg g hmem
    unfold groundRefsGo at hmem
    repeat' (first | (split at hmem) | (dsimp only at hmem))
    all_goals first
      | exact ih _ _ _ hg g hmem
      | (rename_i c heq hused
         refine ih _ _ _ ?_ g hmem
         intro g2 hg2
         rcases List.mem_append.1 hg2 with h2 | h2
         · exact hg g2 h2
         · rcases List.mem_singleton.1 h2 with rfl
           exact ⟨c, lookup_by_num_mem opened _ c heq, rfl, rfl⟩)

/-- Every citation emitted by the grounder matches an opened chunk's
identity. -/
theorem ground_citations_grounded (fa : FinalAction) (state : AgentState)
    (res : Str × List GroundedCitation)
    (h : ground_citations_from_state fa state = .ok res) :
    ∀ g ∈ res.2, matchesOpened state.opened_citations g := by
  unfold ground_citations_from_state at h
  repeat' (first | (split at h) | (dsimp only at h))
  all_goals cases h
  intro g hmem
  refine groundRefsGo_grounded state.opened_citations _ _ _ _
    (groundUsedGo_grounded state.opened_citations _ _ _
      (fun g2 hg2 => absurd hg2 (List.not_mem_nil g2))) g hmem

/-- The cleaned-answer thread of the marker loop: exactly the references
that match no opened citation number are stripped, in order of
occurrence. -/
theorem groundRefsGo_cleaned (opened : List OpenedCitation) :
    ∀ (refs : List Nat) (cleaned : Str)
      (grounded : List GroundedCitation) (used : List (Str × Str)),
      (groundRefsGo opened refs cleaned grounded used).1 =
        List.foldl (fun s n => removeAllLit (bracketLit n) s) cleaned
          (refs.filter (fun n => (lookup_by_num opened n).isNone)) := by
  intro refs
  induction refs with
  | nil => intro cleaned grounded used; rfl
  | cons ref rest ih =>
    intro cleaned grounded used
    rw [List.filter_cons]
    unfold groundRefsGo
    split
    · rename_i c hlk
      simp only [hlk, Option.isNone_some, Bool.false_eq_true, if_false]
      split
      · exact ih _ _ _
      · exact ih _ _ _
    · rename_i hlk
      simp only [hlk, Option.isNone_none, if_true]
      rw [List.foldl_cons]
      exact ih _ _ _

/-- The `(docId, chunkId)` identity keys of a citation list. -/
def citeKeys (l : List GroundedCitation) : List (Str × Str) :=
  l.map (fun g => (g.doc_id, g.chunk_id))

theorem lookup_by_id_eq (opened : List OpenedCitation) (key : Str × Str)
    (c : OpenedCitation) (h : lookup_by_id opened key = some c) :
    c.doc_id = key.1 ∧ c.chunk_id = key.2 := by
  unfold lookup_by_id at h
  have hp := @List.find?_some OpenedCitation
    (fun c => decide (c.doc_id = key.1 ∧ c.chunk_id = key.2)) c
    opened.reverse h
  exact of_decide_eq_true hp

theorem groundUsedGo_keys (opened : List OpenedCitation) :
    ∀ (l : List PyVal) (grounded : List GroundedCitation)
      (used : List (Str × Str)),
      (citeKeys grounded).Nodup →
      (∀ k ∈ citeKeys grounded, k ∈ used) →
      (citeKeys (groundUsedGo opened l grounded used).1).Nodup ∧
      (∀ k ∈ citeKeys (groundUsedGo opened l grounded used).1,
        k ∈ (groundUsedGo opened l grounded used).2) := by
  intro l
  induction l with
  | nil => intro grounded used hnd hsub; exact ⟨hnd, hsub⟩
  | cons x rest ih =>
    intro grounded used hnd hsub
    unfold groundUsedGo
    repeat' (first | split | (dsimp only))
    all_goals first
      | exact ih _ _ hnd hsub
      | (rename_i d ch c heq hused
         rcases lookup_by_id_eq opened _ c heq with ⟨hcd, hcc⟩
         refine ih _ _ ?_ ?_
         · simp only [citeKeys, List.map_append, List.map_cons,
             List.map_nil, groundedOfOpened]
           rw [List.nodup_append]
           refine ⟨hnd, List.nodup_singleton _, ?_⟩
           intro k hk hk2
           rcases List.mem_singleton.1 hk2 with rfl
           have := hsub _ hk
           rw [hcd, hcc] at this
           exact hused (List.elem_iff.2 this)
         · intro k hk
           simp only [citeKeys, List.map_append, List.map_cons,
             List.map_nil, groundedOfOpened] at hk
           rcases List.mem_append.1 hk with hk | hk
           · exact List.mem_append.2 (.inl (hsub _ hk))
           · rcases List.mem_singleton.1 hk with rfl
             rw [hcd, hcc]
             exact List.mem_append.2 (.inr (List.mem_singleton.2 rfl)))

theorem groundRefsGo_keys (opened : List OpenedCitation) :
    ∀ (refs : List Nat) (cleaned : Str)
      (grounded : List GroundedCitation) (used : List (Str × Str)),
      (citeKeys grounded).Nodup →
      (∀ k ∈ citeKeys grounded, k ∈ used) →
      (citeKeys (groundRefsGo opened refs cleaned grounded used).2).Nodup := by
  intro refs
  induction refs with
  | nil => intro cleaned grounded used hnd _; exact hnd
  | cons ref rest ih =>
    intro cleaned grounded used hnd hsub
    unfold groundRefsGo
    repeat' (first | split | (dsimp only))
    all_goals first
      | exact ih _ _ _ hnd hsub
      | (rename_i c heq hused
         refine ih _ _ _ ?_ ?_
         · simp only [citeKeys, List.map_append, List.map_cons,
             List.map_nil, groundedOfOpened]
           rw [List.nodup_append]
           refine ⟨hnd, List.nodup_singleton _, ?_⟩
           intro k hk hk2
           rcases List.mem_singleton.1 hk2 with rfl
           exact hused (List.elem_iff.2 (hsub _ hk))
         · intro k hk
           simp only [citeKeys, List.map_append, List.map_cons,
             List.map_nil, groundedOfOpened] at hk
           rcases List.mem_append.1 hk with hk | hk
           · exact List.mem_append.2 (.inl (hsub _ hk))
           · rcases List.mem_singleton.1 hk with rfl
             exact List.mem_append.2 (.inr (List.mem_singleton.2 rfl)))

/-! ## Constraint analyzer, `min_searches` slice
(`constraints.analyze_constraints` step 1 and
`constraints.count_topic_indicators`)

The concrete regular expressions of `SEPARATE_SEARCH_PATTERNS` and the
topic-count heuristic are implemented as direct scanners.  In each pattern
every greedy `\s+`/`\d+` run is followed by a token drawn from a disjoint
character class, so maximal-munch scanning without backtracking implements
the regex semantics exactly; optional groups `(?:tool\s+)?` / `(?:for\s+)?`
are likewise exact because the following alternatives cannot match at the
start of the optional text. -/

/-- Consume a literal. -/
def eatLit (lit s : Str) : Option Str :=
  if isPrefixStr lit s then some (s.drop lit.length) else none

/-- Consume `\s+` (at least one whitespace character, maximal run). -/
def eatWs1 (s : Str) : Option Str :=
  let w := s.takeWhile isWs
  if w.isEmpty then none else some (s.drop w.length)

/-- Consume `(\d+)` (maximal digit run), returning its integer value. -/
def eatDigits1 (s : Str) : Option (Nat × Str) :=
  let d := s.takeWhile isDigitCh
  if d.isEmpty then none else some (digitsToNat d, s.drop d.length)

/-- Leftmost-match search: try the matcher at every position from the
left. -/
def scanFor {α : Type} (tryHere : Str → Option α) : Str → Option α
  | [] => tryHere []
  | c :: rest =>
    match tryHere (c :: rest) with
    | some a => some a
    | none => scanFor tryHere rest

/-- `\(at\s+least\s+(\d+)\s+tool\s+call` at the current position. -/
def p1At (s : Str) : Option Nat := do
  let s ← eatLit (strOf "(at") s
  let s ← eatWs1 s
  let s ← eatLit (strOf "least") s
  let s ← eatWs1 s
  let (n, s) ← eatDigits1 s
  let s ← eatWs1 s
  let s ← eatLit (strOf "tool") s
  let s ← eatWs1 s
  let _ ← eatLit (strOf "call") s
  pure n

/-- `at\s+least\s+(\d+)\s+(?:tool\s+)?(?:call|search)` at the current
position. -/
def p2At (s : Str) : Option Nat := do
  let s ← eatLit (strOf "at") s
  let s ← eatWs1 s
  let s ← eatLit (strOf "least") s
  let s ← eatWs1 s
  let (n, s) ← eatDigits1 s
  let s ← eatWs1 s
  let s := match (do let r ← eatLit (strOf "tool") s; eatWs1 r) with
    | some r => r
    | none => s
  match eatLit (strOf "call") s with
  | some _ => pure n
  | none => do
    let _ ← eatLit (strOf "search") s
    pure n

/-- `(\d+)\s+(?:tool\s+)?(?:calls?|searches)` at the current position. -/
def p3At (s : Str) : Option Nat := do
  let (n, s) ← eatDigits1 s
  let s ← eatWs1 s
  let s := match (do let r ← eatLit (strOf "tool") s; eatWs1 r) with
    | some r => r
    | none => s
  match eatLit (strOf "call") s with
  | some _ => pure n
  | none => do
    let _ ← eatLit (strOf "searches") s
    pure n

/-- `separate\s+(?:tool\s+)?search(?:es)?` at the current position. -/
def p4At (s : Str) : Option Unit := do
  let s ← eatLit (strOf "separate") s
  let s ← eatWs1 s
  let s := match (do let r ← eatLit (strOf "tool") s; eatWs1 r) with
    | some r => r
    | none => s
  let _ ← eatLit (strOf "search") s
  pure ()

/-- `search\s+(?:for\s+)?(?:each|separately|individually)` at the current
position. -/
def p5At (s : Str) : Option Unit := do
  let s ← eatLit (strOf "search") s
  let s ← eatWs1 s
  let s := match (do let r ← eatLit (strOf "for") s; eatWs1 r) with
    | some r => r
    | none => s
  match eatLit (strOf "each") s with
  | some _ => pure ()
  | none =>
    match eatLit (strOf "separately") s with
    | some _ => pure ()
    | none => do
      let _ ← eatLit (strOf "individually") s
      pure ()

/-- `multiple\s+search(?:es)?` at the current position. -/
def p6At (s : Str) : Option Unit := do
  let s ← eatLit (strOf "multiple") s
  let s ← eatWs1 s
  let _ ← eatLit (strOf "search") s
  pure ()

/-- Step 1 of `analyze_constraints`: the first matching pattern of
`SEPARATE_SEARCH_PATTERNS` (numeric patterns first) sets `min_searches` to
`max(2, n)`, the keyword patterns set it to `2`; `none` when no pattern
matches (the field keeps its default `1`). -/
def minSearchesFromPatterns (text : Str) : Option Nat :=
  match scanFor p1At text with
  | some n => some (max 2 n)
  | none =>
    match scanFor p2At text with
    | some n => some (max 2 n)
    | none =>
      match scanFor p3At text with
      | some n => some (max 2 n)
      | none =>
        if (scanFor p4At text).isSome then some 2
        else if (scanFor p5At text).isSome then some 2
        else if (scanFor p6At text).isSome then some 2
        else none

/-- `re.findall` of a `d([^d]+)d` quoting pattern, by a single scan:
`skip` counts the characters of an already-recognised match still to be
passed over (the body and its closing delimiter). -/
def findDelimitedGo (d : Char) (skip : Nat) (s : Str) : List Str :=
  match s, skip with
  | [], _ => []
  | _ :: rest, Nat.succ k => findDelimitedGo d k rest
  | c :: rest, 0 =>
    if c = d then
      let body := rest.takeWhile (fun ch => ch ≠ d)
      if ¬ body.isEmpty ∧ isPrefixStr [d] (rest.drop body.length) then
        body :: findDelimitedGo d (body.length + 1) rest
      else findDelimitedGo d 0 rest
    else findDelimitedGo d 0 rest

/-- The delimited bodies of a quoting pattern, in order, non-overlapping. -/
def findDelimitedBody (d : Char) (s : Str) : List Str := findDelimitedGo d 0 s

/-- `constraints.extract_quoted_topics`: bodies of double-, single- and
backtick-quoted spans whose raw length lies in `3..50`, stripped. -/
def extract_quoted_topics (text : Str) : List Str :=
  ((findDelimitedBody dquote text ++ findDelimitedBody apos text ++
    findDelimitedBody btick text).filter
      (fun m => 3 ≤ m.length ∧ m.length ≤ 50)).map stripStr

/-- The capture of `search\s+(?:for\s+)?(.+?)(?:\.|$)` at the current
position: the shortest non-empty newline-free run terminated by a dot or
the end of the text.  (When the run is terminated by a newline the
position fails, as the lazy dot class excludes newlines.) -/
def searchListAt (s : Str) : Option Str := do
  let s1 ← eatLit (strOf "search") s
  let s2 ← eatWs1 s1
  let s3 := match (do let r ← eatLit (strOf "for") s2; eatWs1 r) with
    | some r => r
    | none => s2
  match s3 with
  | [] => none
  | c0 :: rest =>
    if c0 = Char.ofNat 10 then none
    else
      let run := rest.takeWhile (fun c => ¬ (c = '.' ∨ c = Char.ofNat 10))
      let after := rest.drop run.length
      if after.isEmpty ∨ after.head? = some '.' then some (c0 :: run)
      else none

/-- One delimiter of `re.split(r',\s*(?:and\s+)?|\s+and\s+', ...)` at the
current position; returns the text after the delimiter. -/
def splitDelimAt (s : Str) : Option Str :=
  match s with
  | [] => none
  | c :: rest =>
    if c = ',' then
      let r2 := rest.drop (rest.takeWhile isWs).length
      match eatLit (strOf "and") r2 with
      | some r3 =>
        match eatWs1 r3 with
        | some r4 => some r4
        | none => some r2
      | none => some r2
    else if isWs c then
      match eatWs1 (c :: rest) with
      | some r1 =>
        match eatLit (strOf "and") r1 with
        | some r2 => eatWs1 r2
        | none => none
      | none => none
    else none

theorem eatLit_length_le {lit s r : Str} (h : eatLit lit s = some r) :
    r.length ≤ s.length := by
  unfold eatLit at h
  split at h
  · cases h
    simp [List.length_drop]
  · cases h

theorem takeWhile_len_le {α : Type} (p : α → Bool) :
    ∀ l : List α, (l.takeWhile p).length ≤ l.length
  | [] => by simp
  | a :: l => by
    by_cases h : p a
    · simpa [List.takeWhile_cons, h] using takeWhile_len_le p l
    · simp [List.takeWhile_cons, h]

theorem eatWs1_length_lt {s r : Str} (h : eatWs1 s = some r) :
    r.length < s.length := by
  unfold eatWs1 at h
  by_cases he : (s.takeWhile isWs).isEmpty
  · simp [he] at h
  · simp only [he, Bool.false_eq_true, if_false, Option.some.injEq] at h
    have hne : s.takeWhile isWs ≠ [] := by
      intro hnil
      rw [hnil] at he
      exact he rfl
    have hpos : 0 < (s.takeWhile isWs).length := List.length_pos.mpr hne
    have hle : (s.takeWhile isWs).length ≤ s.length := takeWhile_len_le isWs s
    subst h
    simp only [List.length_drop]
    omega

theorem splitDelimAt_length_lt {s r : Str} (h : splitDelimAt s = some r) :
    r.length < s.length := by
  unfold splitDelimAt at h
  split at h
  · cases h
  rename_i c rest
  have hr2 : (rest.drop (rest.takeWhile isWs).length).length ≤ rest.length := by
    simp [List.length_drop]
  split at h
  · -- c = ','
    dsimp only at h
    split at h
    · rename_i r3 he
      have l3 := eatLit_length_le he
      split at h
      · rename_i r4 hw1
        cases h
        have := eatWs1_length_lt hw1
        simp only [List.length_cons]
        omega
      · cases h
        simp only [List.length_cons]
        omega
    · cases h
      simp only [List.length_cons]
      omega
  · split at h
    · -- whitespace head
      split at h
      · rename_i r1 h1
        have e1 := eatWs1_length_lt h1
        split at h
        · rename_i r2 h2
          have e2 := eatLit_length_le h2
          have e3 := eatWs1_length_lt h
          omega
        · cases h
      · cases h
    · cases h

/-- The parts produced by `re.split(r',\s*(?:and\s+)?|\s+and\s+', ...)`. -/
def splitPartsGo (acc : Str) (s : Str) : List Str :=
  match s with
  | [] => [acc.reverse]
  | c :: rest =>
    match hd : splitDelimAt (c :: rest) with
    | some after => acc.reverse :: splitPartsGo [] after
    | none => splitPartsGo (c :: acc) rest
termination_by s.length
decreasing_by
  · exact splitDelimAt_length_lt hd
  · simp [List.length_cons]

/-- `re.split(r',\s*(?:and\s+)?|\s+and\s+', list_text)`. -/
def splitListParts (s : Str) : List Str := splitPartsGo [] s

/-- `constraints.count_topic_indicators`. -/
def count_topic_indicators (text : Str) : Nat :=
  let quoted := extract_quoted_topics text
  let count := max 0 quoted.length
  match scanFor searchListAt text with
  | some list_text =>
    let parts := splitListParts list_text
    if 1 < parts.length then
      max count ((parts.filter (fun p => 3 < (stripStr p).length)).length)
    else count
  | none => count

/-- The `min_searches` field of `constraints.analyze_constraints`: step 1
(the ordered `SEPARATE_SEARCH_PATTERNS` scan over the lower-cased prompt)
followed by the unconditional topic-count raise.  The later steps of the
analyzer never touch this field. -/
def analyze_min_searches (prompt : Str) : Nat :=
  let text := lowerStr prompt
  let base :=
    match minSearchesFromPatterns text with
    | some m => m
    | none => 1
  let topic_count := count_topic_indicators text
  if 1 < topic_count then max base (min topic_count 5) else base

/-! ## HTTP view validation (`views.AgentRunView.post`) and the question
handling of `run_agent_v2` -/

/-- Outcome of the question/mode validation of `AgentRunView.post`. -/
inductive ViewOutcome where
  | reject (status : Nat) (code : Str)
  | accept (question : Str)
deriving DecidableEq

/-- `views.AgentRunView.post`, request-validation section (source lines
78–100): an empty or whitespace-only question, a stripped question longer
than `MAX_QUESTION_LENGTH`, or a mode other than `"agent"` is rejected with
HTTP 400 and code `VALIDATION_ERROR`; otherwise the stripped question is
passed unchanged to `run_agent_v2` (with `refine_prompt` disabled). -/
def agent_run_view_validate (question mode : Str) : ViewOutcome :=
  if stripStr question = [] then .reject 400 (strOf "VALIDATION_ERROR")
  else
    let q := stripStr question
    if MAX_QUESTION_LENGTH < q.length then
      .reject 400 (strOf "VALIDATION_ERROR")
    else if ¬ (mode = strOf "agent") then
      .reject 400 (strOf "VALIDATION_ERROR")
    else .accept q

/-- The question validation and truncation at the top of
`run_agent_v2` (source lines 951–957): raise `AgentError` on an
empty/whitespace question, strip, truncate to `MAX_QUESTION_LENGTH`. -/
def run_agent_question (question : Str) : Except PyExc Str :=
  if stripStr question = [] then
    .error (.agentError (strOf "Question is required"))
  else
    let q := stripStr question
    if MAX_QUESTION_LENGTH < q.length then .ok (q.take MAX_QUESTION_LENGTH)
    else .ok q

/-! ## Shared concrete inputs for witnesses and counterexamples -/

/-- A decoded `tool_call` object. -/
def mkToolCallInput (tool : Str) (fields : List (Str × PyVal)) : ParserInput :=
  .jsonObj [(strOf "type", .pyStr (strOf "tool_call")),
            (strOf "tool", .pyStr tool),
            (strOf "input", .pyDict fields)]

/-- A decoded `open_citation` call on the pair `("d", "c")`. -/
def openCallInput : ParserInput :=
  mkToolCallInput (strOf "open_citation")
    [(strOf "docId", .pyStr (strOf "d")), (strOf "chunkId", .pyStr (strOf "c"))]

/-- A decoded `search_docs` call with a non-empty query. -/
def searchCallInput : ParserInput :=
  mkToolCallInput (strOf "search_docs")
    [(strOf "query", .pyStr (strOf "reindex sql"))]

/-- A tool layer whose `open_citation` always succeeds. -/
def toolsOk : ToolEnv :=
  ⟨fun d c => .okOut ⟨d, c, 0, strOf "chunk text", strOf "f.md"⟩⟩

/-- Oracle script: an unparseable reply, then a well-formed
`open_citation` call, then another unparseable reply. -/
def envC5 : Env :=
  ⟨fun n =>
    if n = 0 then .okResp (strOf "garbage") .noJson
    else if n = 1 then .okResp (strOf "") openCallInput
    else .okResp (strOf "garbage") .noJson,
   toolsOk⟩

/-- Oracle script: the model immediately requests a `search_docs` call. -/
def envC2 : Env := ⟨fun _ => .okResp (strOf "") searchCallInput, toolsOk⟩

/-- The `TypeError` text raised by the `search_docs` call site. -/
def rerankTypeErrorMsg : Str :=
  strOf "search_docs() got an unexpected keyword argument rerank"

/-! ## Claim C2 -/

/-- Claim C2 (code_bug evidence): the spec demands that every tool-dispatch
failure be caught inside the dispatcher and that no exception raised during
a tool dispatch — in particular a `search_docs` dispatch — propagate above
the per-run boundary.  In the code, `execute_tool` invokes
`search_docs(query, user_id, rerank=rerank)` while `tools.search_docs`
accepts only `(query, user_id)`: every `search_docs` dispatch with a
non-empty query raises `TypeError`, which none of the dispatcher's
`except ToolError` clauses catches; the executor loop then terminates
exceptionally instead of recording an error trace entry and continuing. -/
theorem C2_search_dispatch_raises_TypeError :
    (∀ (env : ToolEnv) (st : AgentState) (tr : List TraceEntry)
       (fields : List (Str × PyVal)),
       pyTruthy (dictGet fields (strOf "query") (.pyStr [])) = true →
       execute_tool env ⟨strOf "search_docs", .pyDict fields⟩ st tr =
         .error (.typeError rerankTypeErrorMsg, st.bumpToolCalls, tr)) ∧
    (runLoop envC2 PromptConstraints.defaults).1 =
      .crashed (.typeError rerankTypeErrorMsg) := by
  constructor
  · intro env st tr fields hq
    unfold execute_tool
    simp [pyGet, hq, search_docs_call, rerankTypeErrorMsg]
  · rfl

/-- Witness for C2: the dispatch of a concrete `search_docs` call with
query `"reindex sql"` raises `TypeError` out of `execute_tool`. -/
theorem C2_search_dispatch_raises_TypeError_witness :
    pyTruthy (dictGet [(strOf "query", PyVal.pyStr (strOf "reindex sql"))]
      (strOf "query") (.pyStr [])) = true ∧
    execute_tool toolsOk
      ⟨strOf "search_docs",
       .pyDict [(strOf "query", PyVal.pyStr (strOf "reindex sql"))]⟩
      (AgentState.init PromptConstraints.defaults) [] =
      .error (.typeError rerankTypeErrorMsg,
        (AgentState.init PromptConstraints.defaults).bumpToolCalls, []) :=
  ⟨by decide,
   C2_search_dispatch_raises_TypeError.1 toolsOk
     (AgentState.init PromptConstraints.defaults) []
     [(strOf "query", PyVal.pyStr (strOf "reindex sql"))] (by decide)⟩

/-! ## Claim C3 -/

/-- A 1001-character question. -/
def longQuestion : Str := List.replicate (MAX_QUESTION_LENGTH + 1) 'a'

/-- A question of length exactly `MAX_QUESTION_LENGTH`. -/
def maxLenQuestion : Str := List.replicate MAX_QUESTION_LENGTH 'a'

/-- Claim C3 as stated: a `POST /agent/run` request whose non-empty
question exceeds `MAX_QUESTION_LENGTH` is accepted with the question
truncated to `MAX_QUESTION_LENGTH`. -/
def C3_claim : Prop :=
  ∀ q : Str, MAX_QUESTION_LENGTH < (stripStr q).length →
    agent_run_view_validate q (strOf "agent") =
      .accept ((stripStr q).take MAX_QUESTION_LENGTH)

/-- Counterexample to C3: a 1001-character question in `"agent"` mode is
rejected by `AgentRunView.post` with HTTP 400 / `VALIDATION_ERROR`, not
accepted truncated. -/
theorem C3_counterexample : ¬ C3_claim := by
  intro h
  have h1 := h longQuestion (by decide)
  exact absurd h1 (by decide)

/-- Claim C3 (amended): a request whose stripped question exceeds
`MAX_QUESTION_LENGTH` is rejected with HTTP 400 and code
`VALIDATION_ERROR` (the truncation inside `run_agent_v2` is unreachable on
the HTTP path); a stripped question of length at most
`MAX_QUESTION_LENGTH` — in particular of length exactly
`MAX_QUESTION_LENGTH` — is accepted and passed to `run_agent_v2`
unchanged, and `run_agent_v2`'s own validation leaves it unchanged as
well. -/
theorem C3_amended_overlong_rejected (q : Str) (hne : stripStr q ≠ []) :
    (MAX_QUESTION_LENGTH < (stripStr q).length →
      agent_run_view_validate q (strOf "agent") =
        .reject 400 (strOf "VALIDATION_ERROR")) ∧
    ((stripStr q).length ≤ MAX_QUESTION_LENGTH →
      agent_run_view_validate q (strOf "agent") = .accept (stripStr q) ∧
      run_agent_question q = .ok (stripStr q)) := by
  constructor
  · intro hlong
    unfold agent_run_view_validate
    simp [hne, hlong]
  · intro hshort
    have hnotlong : ¬ MAX_QUESTION_LENGTH < (stripStr q).length := by omega
    unfold agent_run_view_validate run_agent_question
    simp [hne, hnotlong]

/-- Witness for the amended C3: the 1000-character question is accepted
unchanged by the view and by `run_agent_v2`'s own validation. -/
theorem C3_amended_overlong_rejected_witness :
    stripStr maxLenQuestion ≠ [] ∧
    (stripStr maxLenQuestion).length ≤ MAX_QUESTION_LENGTH ∧
    agent_run_view_validate maxLenQuestion (strOf "agent") =
      .accept (stripStr maxLenQuestion) ∧
    run_agent_question maxLenQuestion = .ok (stripStr maxLenQuestion) := by
  refine ⟨by decide, by decide, ?_⟩
  have h := (C3_amended_overlong_rejected maxLenQuestion (by decide)).2
    (by decide)
  exact ⟨h.1, h.2⟩

/-! ## Claim C4 -/

/-- Claim C4 (code_bug evidence): the spec states the action parser never
raises and returns a `ParsedAction` for every input.  In the code,
`parse_strict_json_action` evaluates `data.get('type', '').lower()`;
when the decoded object's `type` field holds a non-string value (an
integer, or JSON `null`), `.lower()` raises `AttributeError`, which the
function does not catch. -/
theorem C4_parser_raises_on_nonstring_type :
    parse_strict_json_action (.jsonObj [(strOf "type", .pyInt 1)]) =
      .error (.attributeError (strOf "object has no attribute lower")) ∧
    parse_strict_json_action (.jsonObj [(strOf "type", .pyNone)]) =
      .error (.attributeError (strOf "object has no attribute lower")) :=
  ⟨rfl, rfl⟩

/-! ## Claim C6 -/

/-- A sequence of successful `search_docs` dispatches applied to a state
(the state mutation performed for each dispatch by `execute_tool` via
`AgentState.add_search_results`; the filename map is irrelevant to query
accounting). -/
def addSearchFold (st : AgentState) (ds : List (Str × SearchDocsOutput)) :
    AgentState :=
  ds.foldl (fun s d => s.add_search_results d.1 d.2 (fun _ => none)) st

/-- Claim C6 as stated: after any sequence of `search_docs` dispatches,
the snapshot count used by the validator's minimum-searches check equals
the number of distinct query strings, and `searchQueries` holds the
distinct queries in insertion order. -/
def C6_claim : Prop :=
  ∀ ds : List (Str × SearchDocsOutput),
    (addSearchFold (AgentState.init PromptConstraints.defaults)
      ds).to_snapshot.search_count = (ds.map Prod.fst).dedup.length ∧
    (addSearchFold (AgentState.init PromptConstraints.defaults)
      ds).search_queries = (ds.map Prod.fst).dedup

/-- Counterexample to C6: dispatching the same query twice yields
`search_count = 2` although only one distinct query was searched, and the
validator's minimum-searches check (with `min_searches = 2`) passes on the
duplicate count. -/
theorem C6_counterexample :
    ¬ C6_claim ∧
    (validate_min_searches
      (addSearchFold (AgentState.init PromptConstraints.defaults)
        [(strOf "q", ⟨[]⟩), (strOf "q", ⟨[]⟩)]).to_snapshot
      { PromptConstraints.defaults with min_searches := 2 }
      ⟨true, [], []⟩).is_valid = true := by
  constructor
  · intro h
    have h1 := (h [(strOf "q", ⟨[]⟩), (strOf "q", ⟨[]⟩)]).1
    exact absurd h1 (by decide)
  · decide

/-- Claim C6 (amended): the agent state's query list records every
successful `search_docs` dispatch in dispatch order, duplicates included,
and the snapshot count used by the validator's minimum-searches check is
the total number of dispatches, not the number of distinct queries. -/
theorem C6_amended_count_is_total_dispatches :
    ∀ (ds : List (Str × SearchDocsOutput)) (st : AgentState),
    (addSearchFold st ds).search_queries =
      st.search_queries ++ ds.map Prod.fst ∧
    (addSearchFold st ds).to_snapshot.search_count =
      st.search_queries.length + ds.length := by
  intro ds
  induction ds with
  | nil => intro st; simp [addSearchFold, AgentState.to_snapshot,
      AgentState.search_count]
  | cons d ds ih =>
    intro st
    have h := ih (st.add_search_results d.1 d.2 (fun _ => none))
    constructor
    · rw [show addSearchFold st (d :: ds) =
        addSearchFold (st.add_search_results d.1 d.2 (fun _ => none)) ds
        from rfl]
      rw [h.1]
      simp [AgentState.add_search_results]
    · rw [show addSearchFold st (d :: ds) =
        addSearchFold (st.add_search_results d.1 d.2 (fun _ => none)) ds
        from rfl]
      rw [h.2]
      simp [AgentState.add_search_results]
      omega

/-! ## Claim C8 -/

/-- The C8 counterexample prompt: an explicit number alongside "searches"
together with four quoted topics. -/
def exPromptC8 : Str :=
  strOf "run 2 searches for " ++ [dquote] ++ strOf "alpha one" ++ [dquote] ++
  strOf ", " ++ [dquote] ++ strOf "beta two" ++ [dquote] ++ strOf ", " ++
  [dquote] ++ strOf "gamma three" ++ [dquote] ++ strOf ", " ++ [dquote] ++
  strOf "delta four" ++ [dquote]

/-- Claim C8 as stated (the part the code violates): when a
`SEPARATE_SEARCH_PATTERNS` rule fires, `minSearches` equals the value that
rule assigns and the topic-count rule is not applied. -/
def C8_claim : Prop :=
  ∀ (prompt : Str) (m : Nat),
    minSearchesFromPatterns (lowerStr prompt) = some m →
    analyze_min_searches prompt = m

/-- Counterexample to C8: on a prompt where the numeric rule fires with
`max(2, 2) = 2` but four quoted topics are present, the analyzer returns
`4`: the topic-count raise is applied even though a pattern rule fired. -/
theorem C8_counterexample : ¬ C8_claim := by
  intro h
  have h1 := h exPromptC8 2 (by decide)
  exact absurd h1 (by decide)

/-- Claim C8 (amended): `minSearches` is the maximum of the ordered
pattern-rule value (numeric rules first, first match wins; default `1`
when no rule matches) and the topic-count raise `min(topicCount, 5)`,
where the raise applies whenever more than one topic is indicated —
regardless of whether a pattern rule fired. -/
theorem C8_amended_topic_raise_unconditional (prompt : Str) :
    analyze_min_searches prompt =
      max ((minSearchesFromPatterns (lowerStr prompt)).getD 1)
        (if 1 < count_topic_indicators (lowerStr prompt) then
          min (count_topic_indicators (lowerStr prompt)) 5
         else 0) := by
  unfold analyze_min_searches
  rcases hp : minSearchesFromPatterns (lowerStr prompt) with _ | m
  · simp only [hp, Option.getD_none]
    by_cases ht : 1 < count_topic_indicators (lowerStr prompt)
    · simp [ht]
    · simp [ht]
  · simp only [hp, Option.getD_some]
    by_cases ht : 1 < count_topic_indicators (lowerStr prompt)
    · simp [ht]
    · have : max m 0 = m := by omega
      simp [ht, this]

/-! ## Claim C7 -/

/-- Claim C7 (code_bug evidence): the spec (and the source's own comment
"Keep full text for validation") states the `MAX_CITATION_TEXT_FOR_LLM`
clip applies to prompt display only, the validator possibly seeing more.
In the code, `AgentState.add_opened_citation` stores the clipped text and
`AgentState.to_snapshot` copies exactly the stored texts, so for a chunk
longer than the clip the validator's snapshot holds precisely the first
2000 characters plus an ellipsis — never more of the chunk's text. -/
theorem C7_snapshot_sees_only_clipped_text (c : PromptConstraints)
    (out : OpenCitationOutput)
    (h : MAX_CITATION_TEXT_FOR_LLM < out.text.length) :
    ((AgentState.init c).add_opened_citation
      out).to_snapshot.opened_citation_texts =
      [out.text.take MAX_CITATION_TEXT_FOR_LLM ++ strOf "..."] := by
  unfold AgentState.add_opened_citation AgentState.to_snapshot AgentState.init
  simp [h, MAX_CONTEXT_CITATIONS]

/-- Witness for C7: opening a 2500-character chunk leaves the validator's
snapshot with a 2003-character text — the characters beyond position 2000
are invisible to the validator. -/
theorem C7_snapshot_sees_only_clipped_text_witness :
    MAX_CITATION_TEXT_FOR_LLM <
      (List.replicate 2500 'a' : Str).length ∧
    ((AgentState.init PromptConstraints.defaults).add_opened_citation
      ⟨strOf "d", strOf "c", 0, List.replicate 2500 'a',
       strOf "f"⟩).to_snapshot.opened_citation_texts =
      [(List.replicate 2500 'a' : Str).take MAX_CITATION_TEXT_FOR_LLM ++
        strOf "..."] ∧
    ((List.replicate 2500 'a' : Str).take MAX_CITATION_TEXT_FOR_LLM ++
      strOf "...").length = 2003 := by
  refine ⟨by simp [MAX_CITATION_TEXT_FOR_LLM], ?_, ?_⟩
  · exact C7_snapshot_sees_only_clipped_text PromptConstraints.defaults
      ⟨strOf "d", strOf "c", 0, List.replicate 2500 'a', strOf "f"⟩
      (by simp [MAX_CITATION_TEXT_FOR_LLM])
  · simp [MAX_CITATION_TEXT_FOR_LLM, strOf]

/-! ## Claim C1 -/

/-- Claim C1 as stated by the spec: every citation attached to the final
result either carries the identity of an opened chunk, or is a
search-fallback citation — and the latter only in runs where no chunks
were ever opened. -/
def C1_claim : Prop :=
  ∀ (fa : FinalAction) (state : AgentState) (cleaned : Str)
    (cits : List GroundedCitation),
    final_path_result fa state = .ok (cleaned, cits) →
    ∀ g ∈ cits,
      matchesOpened state.opened_citations g ∨
      (state.opened_citations = [] ∧
        g ∈ fallback_citations_from_search state)

/-- A state in which one chunk `("d1","c1")` was opened and one search
returned a hit on a different chunk `("d2","c2")`. -/
def stateC1 : AgentState :=
  ((AgentState.init PromptConstraints.defaults).add_search_results
      (strOf "q") ⟨[⟨strOf "d2", strOf "c2", 0, strOf "snip", 0⟩]⟩
      (fun _ => none)).add_opened_citation
    ⟨strOf "d1", strOf "c1", 0, strOf "text one", strOf "f1"⟩

/-- A `FINAL` action citing nothing: no `[N]` markers in the answer and an
empty `used_citations` list. -/
def faC1 : FinalAction :=
  ⟨.pyStr (strOf "answer"), .pyList [], .pyList []⟩

/-- **C1** (corrected, counterexample): in a run that opened chunk
`("d1","c1")` but whose accepted `FINAL` cites nothing, the grounded list
comes out empty, so the assembly (executor_v2.py lines 1221-1223)
substitutes the search-fallback citations — here a citation on
`("d2","c2")`, which matches no opened chunk — even though a chunk *was*
opened during the run. -/
theorem C1_counterexample : ¬ C1_claim := by
  intro h
  have h2 := h faC1 stateC1 (strOf "answer")
    [⟨strOf "d2", strOf "c2", 0, strOf "snip", strOf "document", 0⟩] rfl
    ⟨strOf "d2", strOf "c2", 0, strOf "snip", strOf "document", 0⟩
    (List.mem_singleton.2 rfl)
  have hop : stateC1.opened_citations = [⟨strOf "d1", strOf "c1", 0,
      strOf "text one", strOf "f1", 1⟩] := rfl
  rcases h2 with ⟨oc, hoc, hdoc, _⟩ | ⟨hopen, _⟩
  · rw [hop] at hoc
    rcases List.mem_singleton.1 hoc with rfl
    exact absurd hdoc (by decide)
  · rw [hop] at hopen
    cases hopen

/-- **C1** (corrected): every citation emitted by the grounder matches an
opened chunk's identity, but the search-fallback substitution is governed
solely by the grounded list being empty while search results exist — it
does not check whether chunks were opened, so fallback citations (which
need not match any opened chunk) can appear in runs that did open
chunks. -/
theorem C1_amended_fallback_regardless_of_opens (fa : FinalAction)
    (state : AgentState) (res : Str × List GroundedCitation)
    (h : ground_citations_from_state fa state = .ok res) :
    (∀ g ∈ res.2, matchesOpened state.opened_citations g) ∧
    final_path_result fa state = .ok (res.1,
      if res.2.isEmpty ∧ ¬ state.search_results.isEmpty then
        fallback_citations_from_search state
      else res.2) := by
  refine ⟨ground_citations_grounded fa state res h, ?_⟩
  unfold final_path_result
  rw [h]
  by_cases hc : res.2.isEmpty ∧ ¬ state.search_results.isEmpty
  · show (if res.2.isEmpty ∧ ¬ state.search_results.isEmpty then
        Except.ok (res.1, fallback_citations_from_search state)
      else Except.ok res) = _
    rw [if_pos hc, if_pos hc]
  · show (if res.2.isEmpty ∧ ¬ state.search_results.isEmpty then
        Except.ok (res.1, fallback_citations_from_search state)
      else Except.ok res) = _
    rw [if_neg hc, if_neg hc]

/-- Witness for the amended C1: on the concrete run of `stateC1`/`faC1`
the grounder returns no citations, and the final result carries the
search-fallback list although a chunk was opened. -/
theorem C1_amended_fallback_regardless_of_opens_witness :
    ground_citations_from_state faC1 stateC1 =
      .ok (strOf "answer", []) ∧
    final_path_result faC1 stateC1 =
      .ok (strOf "answer", fallback_citations_from_search stateC1) := by
  have h2 := (C1_amended_fallback_regardless_of_opens faC1 stateC1
    (strOf "answer", []) rfl).2
  rw [if_pos ⟨rfl, by decide⟩] at h2
  exact ⟨rfl, h2⟩

/-! ## Claim C5 -/

/-- Claim C5 as stated by the spec: only a second *consecutive* parse
failure exits the loop into synthesis fallback (an intervening successful
parse resets the tolerance).  Formally: whenever the loop exits with
`jsonErrors`, the last two oracle replies consumed were both
parse-invalid. -/
def C5_claim : Prop :=
  ∀ (env : Env) (c : PromptConstraints),
    (runLoop env c).1 = .exited .jsonErrors →
    2 ≤ (runLoop env c).2.llm_calls ∧
    replyInvalid (env.llm ((runLoop env c).2.llm_calls - 1)) = true ∧
    replyInvalid (env.llm ((runLoop env c).2.llm_calls - 2)) = true

/-- **C5** (corrected, counterexample): under the oracle script
`envC5` — an unparseable reply, then a well-formed `open_citation` call,
then another unparseable reply — the loop exits with `jsonErrors` on the
third reply even though the two invalid replies are not consecutive: the
middle reply (index 1) parses to a valid tool call.  `json_error_count`
is never reset by a successful parse (executor_v2.py lines 1027-1035). -/
theorem C5_counterexample : ¬ C5_claim := by
  intro h
  have h2 := h envC5 PromptConstraints.defaults rfl
  have hmid : replyInvalid (envC5.llm
      ((runLoop envC5 PromptConstraints.defaults).2.llm_calls - 2)) =
      false := rfl
  exact Bool.false_ne_true (hmid.symm.trans h2.2.2)

/-- **C5** (corrected): `json_error_count` is cumulative over the whole
run — it always equals the total number of parse-invalid oracle replies
consumed so far, with no reset on a successful parse.  The loop exits with
`jsonErrors` exactly when that cumulative total reaches 2 (so two invalid
parses anywhere in the run exit the loop, consecutive or not), and on any
other termination the total is at most 1 (a single invalid parse only sets
the reprompt and continues). -/
theorem C5_amended_json_error_count_cumulative (env : Env)
    (c : PromptConstraints) :
    (runLoop env c).2.json_error_count =
      invalidCountUpTo env (runLoop env c).2.llm_calls ∧
    ((runLoop env c).1 = .exited .jsonErrors →
      (runLoop env c).2.json_error_count = 2) ∧
    ((runLoop env c).1 ≠ .exited .jsonErrors →
      (runLoop env c).2.json_error_count ≤ 1) := by
  have h := loopGo_inv env c MAX_ITERATIONS
    ⟨AgentState.init c, [], 0, 0, 0, none, 0⟩
    (by constructor <;> simp [AgentState.init, BudgetOK])
    (by simp [invalidCountUpTo])
    (by simp)
  exact ⟨h.2.1, h.2.2.1, h.2.2.2⟩

/-! ## Claim C9 -/

/-- Claim C9 as stated by the spec: the grounder strips exactly the
unassigned `[n]` markers, "collapsing any resulting multiple spaces"; when
every marker maps to an opened chunk nothing is stripped, so the answer
text is returned unchanged. -/
def C9_claim : Prop :=
  ∀ (fa : FinalAction) (state : AgentState) (answer cleaned : Str)
    (cits : List GroundedCitation),
    fa.answer = .pyStr answer →
    ground_citations_from_state fa state = .ok (cleaned, cits) →
    (∀ n ∈ findBracketRefs answer,
      (lookup_by_num state.opened_citations n).isSome = true) →
    cleaned = answer

/-- A state with one opened chunk, assigned citation number 1. -/
def state9 : AgentState :=
  (AgentState.init PromptConstraints.defaults).add_opened_citation
    ⟨strOf "d1", strOf "c1", 0, strOf "text", strOf "f1"⟩

/-- A `FINAL` whose answer holds only the assigned marker `[1]`, plus a
blank line. -/
def fa9 : FinalAction :=
  ⟨.pyStr (strOf "a\n\nb [1]"), .pyList [], .pyList []⟩

/-- **C9** (corrected, counterexample): on an answer whose only marker
`[1]` is assigned to an opened chunk, nothing is stripped — yet the
grounder still rewrites the answer: `re.sub(r'\s+', ' ', ...).strip()`
(executor_v2.py line 902) runs unconditionally, so `"a\n\nb [1]"` comes
back as `"a b [1]"` although no marker was hallucinated. -/
theorem C9_counterexample : ¬ C9_claim := by
  intro h
  have h2 := h fa9 state9 (strOf "a\n\nb [1]") (strOf "a b [1]")
    [⟨strOf "d1", strOf "c1", 0, strOf "text", strOf "f1", 0⟩]
    rfl rfl (by decide)
  exact absurd h2 (by decide)

/-- **C9** (corrected): the grounder strips exactly the bracket markers
whose number is assigned to no opened citation (in order of occurrence),
then *unconditionally* collapses every whitespace run to a single space
and strips leading/trailing whitespace — even when no marker was removed;
and it emits at most one grounded citation per distinct
`(docId, chunkId)` identity. -/
theorem C9_amended_strip_then_collapse_always (fa : FinalAction)
    (state : AgentState) (answer cleaned : Str)
    (cits : List GroundedCitation)
    (h1 : fa.answer = .pyStr answer)
    (h2 : ground_citations_from_state fa state = .ok (cleaned, cits)) :
    cleaned = collapseWs (List.foldl
      (fun s n => removeAllLit (bracketLit n) s) answer
      ((findBracketRefs answer).filter
        (fun n => (lookup_by_num state.opened_citations n).isNone))) ∧
    (citeKeys cits).Nodup := by
  unfold ground_citations_from_state at h2
  repeat' (first | (split at h2) | (dsimp only at h2))
  all_goals cases h2
  rename_i ans hans
  rw [h1] at hans
  injection hans with hae
  subst hae
  constructor
  · rw [groundRefsGo_cleaned]
  · refine groundRefsGo_keys state.opened_citations _ _ _ _
      (groundUsedGo_keys state.opened_citations _ [] []
        (by simp [citeKeys]) (by simp [citeKeys])).1
      (groundUsedGo_keys state.opened_citations _ [] []
        (by simp [citeKeys]) (by simp [citeKeys])).2

/-- Witness for the amended C9: on the concrete run of `state9`/`fa9`
no marker is stripped (the filter of unassigned references is empty), yet
the cleaned answer is the whitespace-collapsed `"a b [1]"`, and the single
emitted citation key is trivially duplicate-free. -/
theorem C9_amended_strip_then_collapse_always_witness :
    ((findBracketRefs (strOf "a\n\nb [1]")).filter
      (fun n => (lookup_by_num state9.opened_citations n).isNone)) = [] ∧
    strOf "a b [1]" = collapseWs (List.foldl
      (fun s n => removeAllLit (bracketLit n) s) (strOf "a\n\nb [1]")
      ((findBracketRefs (strOf "a\n\nb [1]")).filter
        (fun n => (lookup_by_num state9.opened_citations n).isNone))) ∧
    (citeKeys [⟨strOf "d1", strOf "c1", 0, strOf "text", strOf "f1",
      0⟩]).Nodup := by
  refine ⟨rfl, ?_, ?_⟩
  · exact (C9_amended_strip_then_collapse_always fa9 state9
      (strOf "a\n\nb [1]") (strOf "a b [1]")
      [⟨strOf "d1", strOf "c1", 0, strOf "text", strOf "f1", 0⟩]
      rfl rfl).1
  · exact (C9_amended_strip_then_collapse_always fa9 state9
      (strOf "a\n\nb [1]") (strOf "a b [1]")
      [⟨strOf "d1", strOf "c1", 0, strOf "text", strOf "f1", 0⟩]
      rfl rfl).2

/-- **C10** (confirmed): for every oracle environment and every constraint
record, `tool_calls_used` never exceeds `MAX_TOOL_CALLS` at any point of the
run: the final counter is bounded, and so is every value the counter ever
took (the ghost `used_log` records the counter after every increment, i.e.
after every model-requested dispatch — which pre-increments even on a
failing dispatch — and after every safety auto-open of the validation
gate). -/
theorem C10_tool_budget_never_exceeded (env : Env) (c : PromptConstraints) :
    (runLoop env c).2.state.tool_calls_used ≤ MAX_TOOL_CALLS ∧
    ∀ v ∈ (runLoop env c).2.state.used_log, v ≤ MAX_TOOL_CALLS := by
  have h := loopGo_inv env c MAX_ITERATIONS
    ⟨AgentState.init c, [], 0, 0, 0, none, 0⟩
    (by constructor <;> simp [AgentState.init, BudgetOK])
    (by simp [invalidCountUpTo])
    (by simp)
  exact h.1

end DocuChat
